import Mathlib

/-!
Verification of the pgread PostgreSQL on-disk-format reader.

This file shallowly embeds the Go source of the `pgdump` and `pkg`
packages (binary.go, page.go, tuple.go, jsonb.go, catalog.go, pgdump.go,
the checksum file and the tuple/row reader) into Lean and settles the
frozen claims about the natural-language specification.

Modelling conventions, used consistently below:
* a Go byte slice is a `List Nat` (bytes are the list elements);
* a Go function that can panic (out-of-range index or slice) returns
  `Option _`, with `none` marking the panic; bounds-checked code paths
  whose reads are always in range use total `getD`-based readers;
* a Go `interface{}` value is a `Value`; the Go `nil` interface is
  `Value.vNull`; the textual renderings that Go produces with
  `fmt.Sprintf` for temporal/float values are kept abstract as
  `Value.vFmt tag args` carrying the exact decoded components (no claim
  inspects those strings); hexadecimal renderings (uuid) are modelled
  exactly;
* Go's `float64` arithmetic inside the numeric decoder is idealised as
  exact rational arithmetic (`Rat`); claims that depend on floating
  point rounding are not settled against this idealisation;
* Go loops are structural recursions; where the loop variable is not
  structurally decreasing a fuel argument bounds the iteration count,
  chosen large enough that it is never exhausted on the executed paths.
-/

/-! ## Binary primitives (src/pgdump/binary.go) -/

/-- Go byte strings and byte slices. -/
abbrev GoStr := List Nat

/-- ASCII bytes of a literal, for catalog column names and map keys. -/
def gs (s : String) : GoStr := s.data.map Char.toNat

/-- Total little-endian u16 read (`binary.LittleEndian.Uint16(data[off:])`)
for call sites whose surrounding code has already checked the bounds. -/
def leU16 (data : GoStr) (off : Nat) : Nat :=
  data.getD off 0 + 256 * data.getD (off + 1) 0

/-- Total little-endian u32 read, for bounds-checked call sites. -/
def leU32 (data : GoStr) (off : Nat) : Nat :=
  data.getD off 0 + 256 * data.getD (off + 1) 0 + 65536 * data.getD (off + 2) 0 +
    16777216 * data.getD (off + 3) 0

/-- Total little-endian u64 read, for bounds-checked call sites. -/
def leU64 (data : GoStr) (off : Nat) : Nat :=
  leU32 data off + 4294967296 * leU32 data (off + 4)

/-- Panic-aware u16 read: Go's `u16(data, off)` panics when fewer than two
bytes remain, which `none` records. -/
def u16v (data : GoStr) (off : Nat) : Option Nat :=
  if off + 2 ≤ data.length then some (leU16 data off) else none

/-- Panic-aware u32 read. -/
def u32v (data : GoStr) (off : Nat) : Option Nat :=
  if off + 4 ≤ data.length then some (leU32 data off) else none

/-- Panic-aware u64 read. -/
def u64v (data : GoStr) (off : Nat) : Option Nat :=
  if off + 8 ≤ data.length then some (leU64 data off) else none

/-- Reinterpret an unsigned 16-bit value as Go `int16`. -/
def toI16 (n : Nat) : Int := if n < 32768 then (n : Int) else (n : Int) - 65536

/-- Reinterpret an unsigned 32-bit value as Go `int32`. -/
def toI32 (n : Nat) : Int :=
  if n < 2147483648 then (n : Int) else (n : Int) - 4294967296

/-- Reinterpret an unsigned 64-bit value as Go `int64`. -/
def toI64 (n : Nat) : Int :=
  if n < 9223372036854775808 then (n : Int) else (n : Int) - 18446744073709551616

/-- Panic-aware i16 read (`i16` in binary.go). -/
def i16v (data : GoStr) (off : Nat) : Option Int := (u16v data off).map toI16

/-- Panic-aware i32 read (`i32` in binary.go). -/
def i32v (data : GoStr) (off : Nat) : Option Int := (u32v data off).map toI32

/-- Panic-aware i64 read (`i64` in binary.go). -/
def i64v (data : GoStr) (off : Nat) : Option Int := (u64v data off).map toI64

/-- Go slice expression `data[lo:hi]`: panics unless `lo ≤ hi ≤ len`. -/
def slicev (data : GoStr) (lo hi : Nat) : Option GoStr :=
  if lo ≤ hi ∧ hi ≤ data.length then some ((data.drop lo).take (hi - lo)) else none

/-- `align` from binary.go: round `offset` up to an `alignment` boundary;
`(offset + alignment - 1) &^ (alignment - 1)` for the power-of-two
alignments (1, 2, 4, 8) the decoder uses. -/
def alignGo (offset alignment : Nat) : Nat :=
  if alignment ≤ 1 then offset
  else (offset + alignment - 1) - (offset + alignment - 1) % alignment

/-- `cstring` from binary.go: bytes before the first NUL, truncated to
`maxLen`. The recursion walks the list exactly as the Go index loop does. -/
def cstringAux (maxLen : Nat) : GoStr → Nat → Option GoStr
  | [], _ => none
  | b :: rest, i =>
      if i < maxLen then
        if b = 0 then some [] else (cstringAux maxLen rest (i + 1)).map (b :: ·)
      else none

/-- `cstring data maxLen`; the `none` branch of the scan maps to Go's
fallback return of `data[:maxLen]` or `data`. -/
def cstring (data : GoStr) (maxLen : Nat) : GoStr :=
  match cstringAux maxLen data 0 with
  | some s => s
  | none => if maxLen < data.length then data.take maxLen else data

/-! ## The dynamic value domain

Go's decoders return `interface{}`; the closed set of runtime types they
produce is captured by `Value`. `vFmt tag args` stands for the string Go
renders with `fmt.Sprintf` for the named family, carrying the decoded
components verbatim (injective per tag, rendering abstracted). -/

inductive Value where
  | vNull
  | vBool (b : Bool)
  | vInt (n : Int)
  | vInt16 (n : Int)
  | vInt32 (n : Int)
  | vInt64 (n : Int)
  | vUInt32 (n : Nat)
  | vFloat32 (bits : Nat)
  | vFloat64 (bits : Nat)
  | vStr (s : GoStr)
  | vNum (q : Rat)
  | vList (l : List Value)
  | vObj (m : List (GoStr × Value))
  | vFmt (tag : String) (args : List Int)
  | vRender (tag : String) (parts : List Value)
  deriving Repr

/-- `toInt` from binary.go: Go type-switch over the integer runtime types
(`int`, `int16`, `int32`, `int64`, `uint32`, `uint16`), default 0.  The
decoders below never produce a bare `uint16`, so that arm is absent. -/
def toIntGo : Value → Int
  | .vInt n => n
  | .vInt16 n => n
  | .vInt32 n => n
  | .vInt64 n => n
  | .vUInt32 n => (n : Int)
  | _ => 0

/-! ## Numeric decoder (src/pgdump/jsonb.go, DecodeNumeric)

`computeNumeric` accumulates into a Go `float64`; this section models the
value as an exact rational only to give decoded numerics a carrier inside
`Value`. No rounding-sensitive claim is settled against this exact-Rat
idealisation: the binary64-faithful model of the accumulation (`fpRound`,
`hornerFp`, `computeNumericFp0`) appears with the value-formula theorems
further down. -/

/-- Horner accumulation `result = result*10000 + d` over the digits. -/
def numericHorner (digits : List Int) : Rat :=
  digits.foldl (fun (r : Rat) (d : Int) => r * 10000 + (d : Rat)) 0

/-- `computeNumeric(digits, weight, sign)`:
multiplies or divides by `10000^|exp|` exactly as the source does. -/
def computeNumeric (digits : List Int) (weight : Int) (sign : Int) : Rat :=
  if digits.length = 0 then 0
  else
    let result := numericHorner digits
    let exp : Int := weight - (digits.length : Int) + 1
    let result := if 0 ≤ exp then result * (10000 : Rat) ^ exp.toNat
                  else result / (10000 : Rat) ^ (-exp).toNat
    (sign : Rat) * result

/-- Digit extraction loop of both numeric decoders: `u16` words at
`base + 2*i`; the callers have established the bounds, so the reads are
total. -/
def numericDigits (raw : GoStr) (base : Nat) : Nat → List Int
  | 0 => []
  | n + 1 => (leU16 raw base : Int) :: numericDigits raw (base + 2) n

/-- `decodeNumericShort(raw, header)`: sign bit 13, weight-sign bit 6,
weight magnitude bits 0–5. -/
def decodeNumericShort (raw : GoStr) (header : Nat) : Value :=
  let sign : Int := if header &&& 0x2000 ≠ 0 then -1 else 1
  let weight : Int := (header &&& 0x003F : Nat)
  let weight := if header &&& 0x0040 ≠ 0 then -weight - 1 else weight
  let ndigits := (raw.length - 2) / 2
  if ndigits = 0 then .vInt 0
  else .vNum (computeNumeric (numericDigits raw 2 ndigits) weight sign)

/-- `decodeNumericLong(raw)`: `[ndigits u16][weight i16][sign u16][dscale]`
then the digits; `sign == 0x4000` means negative. -/
def decodeNumericLong (raw : GoStr) : Value :=
  if raw.length < 8 then .vNull
  else
    let ndigits := leU16 raw 0
    let weight := toI16 (leU16 raw 2)
    let sign : Int := if leU16 raw 4 = 0x4000 then -1 else 1
    if ndigits = 0 then .vInt 0
    else if raw.length < 8 + ndigits * 2 then .vNull
    else .vNum (computeNumeric (numericDigits raw 8 ndigits) weight sign)

/-- `DecodeNumeric(raw)`: header bit 15 selects the short form.  Returns
the Go `nil` interface (`vNull`) on a short slice. -/
def DecodeNumeric (raw : GoStr) : Value :=
  if raw.length < 2 then .vNull
  else
    let header := leU16 raw 0
    if header &&& 0x8000 ≠ 0 then decodeNumericShort raw header
    else decodeNumericLong raw

/-! ## JSONB decoder (src/pgdump/jsonb.go)

The Go functions `ParseJSONB`, `parseJSONBObject`, `parseJSONBArray` and
`decodeJEntry` recurse through nested containers.  Every nested container
is a strictly shorter slice of the input, so a fuel argument of
`data.length + 1` can never be exhausted; the helpers receive the parser
for the next nesting level as a function argument, keeping every
definition structurally recursive (and hence kernel-reducible). -/

/-- `endOffset(entries, idx)`: scan backwards for the nearest JEntry with
the HAS_OFF bit and add the lengths since it.  The Go backward `for` loop
with its inner summation loop is restructured as a primitive recursion on
`idx`: if entry `idx` has HAS_OFF its value field is the end offset;
otherwise the end offset is the end offset at `idx-1` plus this entry's
length field — the same value the two nested Go loops produce. -/
def endOffsetGo (entries : List Nat) : Nat → Nat
  | 0 => entries.getD 0 0 &&& 0x0FFFFFFF
  | idx + 1 =>
      let e := entries.getD (idx + 1) 0
      if e &&& 0x80000000 ≠ 0 then e &&& 0x0FFFFFFF
      else endOffsetGo entries idx + (e &&& 0x0FFFFFFF)

/-- `totalLen(entries)`. -/
def totalLenGo (entries : List Nat) : Nat :=
  if entries.length = 0 then 0 else endOffsetGo entries (entries.length - 1)

/-- `entryOffLen(entries, idx, base)`: start offset plus either the length
field or `val - start` for HAS_OFF entries.  The difference can be
negative in Go (both operands are `int`), hence the `Int` length. -/
def entryOffLen (entries : List Nat) (idx : Nat) (base : Nat) : Nat × Int :=
  let je := entries.getD idx 0
  let val : Int := ((je &&& 0x0FFFFFFF : Nat) : Int)
  let start : Nat := if 0 < idx then endOffsetGo entries (idx - 1) else 0
  if je &&& 0x80000000 ≠ 0 then (base + start, val - (start : Int))
  else (base + start, val)

/-- The JEntry u32 array: `u32(data, 4+i*4)` for `i < numEntries`; the
caller checked `4 + numEntries*4 ≤ len(data)`, so the reads are total. -/
def jsonbEntries (data : GoStr) : Nat → Nat → List Nat
  | _, 0 => []
  | i, k + 1 => leU32 data (4 + i * 4) :: jsonbEntries data (i + 1) k

/-- `decodeJNumeric(data)`: strip the varlena header (long or short) and
hand the content to `DecodeNumeric`; a failed guard leaves the content
`nil`, which `DecodeNumeric` maps to the Go `nil` interface. -/
def decodeJNumeric (data : GoStr) : Value :=
  if data.length < 4 then .vNull
  else
    let hdr := leU32 data 0
    let content : GoStr :=
      if hdr &&& 3 = 0 then
        let n := hdr >>> 2
        if 4 < n ∧ n ≤ data.length then (data.drop 4).take (n - 4) else []
      else
        let n := (hdr &&& 0xFF) >>> 1
        if 1 < n ∧ n ≤ data.length then (data.drop 1).take (n - 1) else []
    DecodeNumeric content

/-- Go map assignment `m[k] = v`: overwrite the existing key or append. -/
def mapSetGo (m : List (GoStr × Value)) (k : GoStr) (v : Value) : List (GoStr × Value) :=
  match m with
  | [] => [(k, v)]
  | (k', v') :: rest => if k' = k then (k, v) :: rest else (k', v') :: mapSetGo rest k v

/-- `decodeJEntry(data, off, length, je)` with the next-level parser passed
in.  The string arm's slice panics when `length` is negative (`none`);
the numeric and container arms align up to 4 and re-check the bounds,
falling through to the Go `return nil` (`vNull`) when a guard fails. -/
def decodeJEntryWith (parse : GoStr → Option Value) (data : GoStr) (off : Nat)
    (length : Int) (je : Nat) : Option Value :=
  let t := je &&& 0x70000000
  if t = 0x00000000 then
    if (off : Int) + length ≤ (data.length : Int) then
      (slicev data off ((off : Int) + length).toNat).map .vStr
    else some .vNull
  else if t = 0x10000000 then
    let aligned := alignGo off 4
    let pad := aligned - off
    if (pad : Int) < length ∧ (aligned : Int) + length - (pad : Int) ≤ (data.length : Int) then
      (slicev data aligned ((aligned : Int) + length - (pad : Int)).toNat).map decodeJNumeric
    else some .vNull
  else if t = 0x50000000 then
    let aligned := alignGo off 4
    let pad := aligned - off
    if (pad : Int) < length ∧ (aligned : Int) + length - (pad : Int) ≤ (data.length : Int) then
      (slicev data aligned ((aligned : Int) + length - (pad : Int)).toNat).bind parse
    else some .vNull
  else if t = 0x40000000 then some .vNull
  else if t = 0x20000000 then some (.vBool false)
  else if t = 0x30000000 then some (.vBool true)
  else some .vNull

/-- `parseJSONBObject`'s key/value loop, structurally on the remaining
count; the key slice panics on a negative key length, as in Go. -/
def jsonbObjLoop (parse : GoStr → Option Value) (data : GoStr) (ds : Nat)
    (keys vals : List Nat) (keysLen : Nat) :
    Nat → Nat → List (GoStr × Value) → Option (List (GoStr × Value))
  | 0, _, acc => some acc
  | remaining + 1, i, acc => do
      let (kOff, kLen) := entryOffLen keys i 0
      let key ← if ((ds + kOff : Nat) : Int) + kLen ≤ (data.length : Int) then
                  slicev data (ds + kOff) (((ds + kOff : Nat) : Int) + kLen).toNat
                else some []
      let (vOff, vLen) := entryOffLen vals i keysLen
      let v ← decodeJEntryWith parse data (ds + vOff) vLen (vals.getD i 0)
      jsonbObjLoop parse data ds keys vals keysLen remaining (i + 1) (mapSetGo acc key v)

/-- `parseJSONBArray`'s element loop. -/
def jsonbArrLoop (parse : GoStr → Option Value) (data : GoStr) (ds : Nat)
    (entries : List Nat) : Nat → Nat → List Value → Option (List Value)
  | 0, _, acc => some acc
  | remaining + 1, i, acc => do
      let (off, length) := entryOffLen entries i 0
      let v ← decodeJEntryWith parse data (ds + off) length (entries.getD i 0)
      jsonbArrLoop parse data ds entries remaining (i + 1) (acc ++ [v])

/-- `ParseJSONB`, fuel-indexed; the zero-fuel arm is unreachable because
each nesting level recurses on a strictly shorter slice and the top-level
call supplies `data.length + 1` fuel. -/
def ParseJSONBF : Nat → GoStr → Option Value
  | 0, _ => some .vNull
  | fuel + 1, data =>
      if data.length < 4 then some .vNull
      else
        let header := leU32 data 0
        let count := header &&& 0x0FFFFFFF
        let isObj := header &&& 0x20000000 ≠ 0
        let isArr := header &&& 0x40000000 ≠ 0
        if (¬isObj ∧ ¬isArr) ∨ count = 0 ∨ 10000 < count then some .vNull
        else
          let numEntries := if isObj then count * 2 else count
          if data.length < 4 + numEntries * 4 then some .vNull
          else
            let entries := jsonbEntries data 0 numEntries
            let dataStart := 4 + numEntries * 4
            let result : Option Value :=
              if isObj then
                let keys := entries.take count
                let vals := entries.drop count
                let keysLen := totalLenGo keys
                (jsonbObjLoop (ParseJSONBF fuel) data dataStart keys vals keysLen
                  count 0 []).map .vObj
              else
                (jsonbArrLoop (ParseJSONBF fuel) data dataStart entries
                  count 0 []).map .vList
            if header &&& 0x10000000 ≠ 0 then
              result.map (fun r =>
                match r with
                | .vList [x] => x
                | r => r)
            else result

/-- `ParseJSONB(data)`: `none` is a Go panic, `some vNull` the Go `nil`
return. -/
def ParseJSONB (data : GoStr) : Option Value := ParseJSONBF (data.length + 1) data

/-- `decodeJEntry` as the source names it, recursing into `ParseJSONB`. -/
def decodeJEntry (data : GoStr) (off : Nat) (length : Int) (je : Nat) : Option Value :=
  decodeJEntryWith ParseJSONB data off length je

/-! ## Page checksums (the checksum file, `VerifyPageChecksum`)

The page is processed as little-endian 32-bit words; the Go loops index
`pageCopy[i:i+4]` for `i = 0, 4, 8, …`, which over a whole page is the
same as consuming the byte list four at a time. -/

/-- The little-endian 32-bit words of a byte list, in order (groups of
four; a trailing partial group is dropped, matching `words := len/4`). -/
def leWords : List Nat → List Nat
  | a :: b :: c :: d :: rest => (a + 256 * b + 65536 * c + 16777216 * d) :: leWords rest
  | _ => []

/-- `checksumComp(checksum, value)`: rotate right by the low five bits of
the running checksum, then XOR in the low half and the doubled high half
of the value — all in `uint32`. -/
def checksumComp (checksum value : Nat) : Nat :=
  let lo := value &&& 0xFFFF
  let hi := value >>> 16
  let shift := checksum &&& 0x1F
  let checksum :=
    if 0 < shift then ((checksum >>> shift) ||| (checksum <<< (32 - shift))) &&& 0xFFFFFFFF
    else checksum
  let checksum := checksum ^^^ lo
  checksum ^^^ ((hi <<< 1) &&& 0xFFFFFFFF)

/-- `make([]byte, 8192)` followed by `copy(pageCopy, page)`: the first
8192 bytes of the page, zero-padded. -/
def pageCopy8192 (page : GoStr) : GoStr :=
  page.take 8192 ++ List.replicate (8192 - page.length) 0

/-- `computePageChecksum(page, blockNumber)`: zero the checksum field
(bytes 8–9), fold `checksumComp` over the 2048 words starting from 0,
XOR in the block number, fold 32→16 bits. -/
def computePageChecksum (page : GoStr) (blockNumber : Nat) : Nat :=
  let pc := ((pageCopy8192 page).set 8 0).set 9 0
  let c := (leWords pc).foldl checksumComp 0
  let c := c ^^^ (blockNumber &&& 0xFFFFFFFF)
  (c >>> 16) ^^^ (c &&& 0xFFFF)

/-- The 32-lane update loop shared by `pgChecksumBlock` and the spec's
algorithm: word `i` multiplies lane `i % 32` by the FNV prime (mod 2³²)
and XORs the word in. -/
def pgSums (words : List Nat) (i : Nat) (sums : List Nat) : List Nat :=
  match words with
  | [] => sums
  | w :: rest =>
      let idx := i % 32
      pgSums rest (i + 1) (sums.set idx (((sums.getD idx 0 * 0x01000193) &&& 0xFFFFFFFF) ^^^ w))

/-- `pgChecksumBlock(page, blockNumber)` (the unused reference
implementation in the source): lanes initialised with the block number,
checksum field zeroed when the page is long enough, lanes combined by
XOR, folded 32→16 bits — the block number is *not* mixed in at the end. -/
def pgChecksumBlock (page : GoStr) (blockNumber : Nat) : Nat :=
  let pc := if 9 < page.length then (page.set 8 0).set 9 0 else page
  let sums := pgSums (leWords pc) 0 (List.replicate 32 (blockNumber &&& 0xFFFFFFFF))
  let result := sums.foldl (· ^^^ ·) 0
  (result >>> 16) ^^^ (result &&& 0xFFFF)

/-- Modelled from the spec (§4.J) and claim C6's wording: a 32-way rolling
FNV-1a (prime `0x01000193`) over the page with bytes 8–9 zeroed, lane
`i mod 32` absorbing the `i`-th word, lanes combined with XOR, the block
number mixed in at the end, folded 32→16 bits by `hi ^ lo`.  It exists
only to compare the specified algorithm against what the code computes. -/
def specChecksumFNV (page : GoStr) (blockNumber : Nat) : Nat :=
  let pc := if 9 < page.length then (page.set 8 0).set 9 0 else page
  let sums := pgSums (leWords pc) 0 (List.replicate 32 0)
  let result := sums.foldl (· ^^^ ·) 0
  let result := result ^^^ (blockNumber &&& 0xFFFFFFFF)
  (result >>> 16) ^^^ (result &&& 0xFFFF)

/-- `isZeroPage(page)`. -/
def isZeroPage (page : GoStr) : Bool := page.all (· == 0)

/-- The result record of `VerifyPageChecksum`. -/
structure ChecksumResult where
  blockNumber : Nat
  storedChecksum : Nat
  computedChecksum : Nat
  valid : Bool
  lsn : Nat
  deriving Repr, DecidableEq

/-- `VerifyPageChecksum(page, blockNumber)`: short pages yield the zero
result, all-zero pages are valid, otherwise the stored u16 at offset 8 is
compared with `computePageChecksum` (all reads bounds-checked by the
initial length test). -/
def VerifyPageChecksum (page : GoStr) (blockNumber : Nat) : ChecksumResult :=
  if page.length < 8192 then
    { blockNumber, storedChecksum := 0, computedChecksum := 0, valid := false, lsn := 0 }
  else if isZeroPage page then
    { blockNumber, storedChecksum := 0, computedChecksum := 0, valid := true, lsn := 0 }
  else
    let stored := leU16 page 8
    let lsn := leU64 page 0
    let computed := computePageChecksum page blockNumber
    { blockNumber, storedChecksum := stored, computedChecksum := computed,
      valid := stored = computed, lsn }

/-! ## UUID decoders (src/pkg/types.go `decodeUUID` and the `OidUUID`
case of src/pgdump/pgdump.go `decodeScalar`) -/

/-- Lowercase hex digit. -/
def hexDig (n : Nat) : Nat := if n < 10 then 48 + n else 87 + n

/-- `%0<w>x`: lowercase hex of `n`, zero-padded to `w` digits (the
decoded values fit their field widths, so no overflow arm is needed). -/
def hexPad : Nat → Nat → GoStr
  | 0, _ => []
  | w + 1, n => hexPad w (n / 16) ++ [hexDig (n % 16)]

/-- `%x` over a byte slice: two lowercase hex digits per byte. -/
def hexBytes (bytes : GoStr) : GoStr := bytes.flatMap (fun b => [hexDig (b / 16), hexDig (b % 16)])

/-- Big-endian u16 read, total form. -/
def beU16 (data : GoStr) (off : Nat) : Nat := 256 * data.getD off 0 + data.getD (off + 1) 0

/-- The `OidUUID` arm of pgdump's `decodeScalar`: little-endian `u32`/`u16`
group reads (panicking on short input) and `%x` over the last six bytes. -/
def pgdumpUUIDStr (data : GoStr) : Option GoStr := do
  let g0 ← u32v data 0
  let g1 ← u16v data 4
  let g2 ← u16v data 6
  let g3 ← u16v data 8
  let tail ← slicev data 10 16
  pure (hexPad 8 g0 ++ [45] ++ hexPad 4 g1 ++ [45] ++ hexPad 4 g2 ++ [45] ++
    hexPad 4 g3 ++ [45] ++ hexBytes tail)

/-! ## Type decoder (src/pgdump/pgdump.go)

`DecodeType` dispatches on the type OID; array and range decoding recurse
into `DecodeType` on strictly shorter slices, so the recursion is
organised exactly like the JSONB one: helpers receive the next-level
decoder as a function argument and a fuel wrapper ties the knot.

Strings that Go renders from decoded numeric/temporal components are kept
abstract as `vFmt`/`vRender` nodes carrying those components; hex-based
renderings (`bytea`, `uuid`) and bit strings are modelled exactly.  The
abstraction is finer-grained than Go's rendering (distinct components that
happen to render alike stay distinct); no claim compares such strings. -/

/-- `safeString(data)`: UTF-8 validation with `.`-replacement, kept
abstract (no claim inspects the sanitised text). -/
def safeStringGo (data : GoStr) : Value := .vFmt "safe" (data.map Int.ofNat)

/-- The `arrayElemTypes` map: array type OID to element OID. -/
def arrayElemTypes (oid : Nat) : Option Nat :=
  match oid with
  | 1000 => some 16 | 1001 => some 17 | 1002 => some 18 | 1003 => some 19
  | 1005 => some 21 | 1006 => some 21 | 1007 => some 23 | 1008 => some 26
  | 1009 => some 25 | 1010 => some 27 | 1011 => some 28 | 1012 => some 29
  | 1014 => some 1042 | 1015 => some 1043 | 1016 => some 20
  | 1017 => some 600 | 1018 => some 601 | 1019 => some 602 | 1020 => some 603
  | 1021 => some 700 | 1022 => some 701 | 1027 => some 604
  | 1028 => some 26 | 1040 => some 829 | 1041 => some 869
  | 1115 => some 1114 | 1182 => some 1082 | 1183 => some 1083
  | 1185 => some 1184 | 1187 => some 1186 | 1231 => some 1700
  | 1270 => some 1266 | 1561 => some 1560 | 1563 => some 1562
  | 2951 => some 2950 | 3221 => some 3220 | 3643 => some 3614 | 3645 => some 3615
  | 3807 => some 3802 | 4073 => some 4072
  | 629 => some 628 | 651 => some 650 | 719 => some 718 | 775 => some 774
  | 791 => some 790
  | 3905 => some 3904 | 3907 => some 3906 | 3909 => some 3908
  | 3911 => some 3910 | 3913 => some 3912 | 3927 => some 3926
  | _ => none

/-- The `fixedLengths` map: element OID to fixed byte width. -/
def fixedLengths (oid : Nat) : Option Nat :=
  match oid with
  | 16 => some 1 | 18 => some 1 | 21 => some 2 | 23 => some 4 | 20 => some 8
  | 26 => some 4 | 700 => some 4 | 701 => some 8 | 1082 => some 4
  | 1114 => some 8 | 1184 => some 8 | 27 => some 6 | 28 => some 4 | 29 => some 4
  | 790 => some 8 | 1083 => some 8 | 829 => some 6 | 774 => some 8
  | 2950 => some 16 | 3220 => some 8 | 600 => some 16 | 601 => some 32
  | 603 => some 32 | 628 => some 24 | 718 => some 24 | 1266 => some 12
  | 1186 => some 16
  | _ => none

/-- `decodePoint(data)`: self-bounds-checked, `"(?,?)"` when short. -/
def decodePoint (data : GoStr) : Value :=
  if data.length < 16 then .vStr (gs "(?,?)")
  else .vFmt "point" [(leU64 data 0 : Int), (leU64 data 8 : Int)]

/-- `decodePathOrPolygon(data, oid)`: `""` on failed bounds checks; the
`make([]string, npts)` call panics on a negative count. -/
def decodePathOrPolygon (data : GoStr) (oid : Nat) : Option Value :=
  if data.length < 5 then some (.vStr [])
  else
    let closed := data.getD 0 0 ≠ 0
    let npts := toI32 (leU32 data 1)
    if (data.length : Int) < 5 + npts * 16 then some (.vStr [])
    else if npts < 0 then none
    else
      let points := (List.range npts.toNat).map
        (fun i => decodePoint ((data.drop (5 + i * 16)).take 16))
      if oid = 604 ∨ closed then some (.vRender "ptsParen" points)
      else some (.vRender "ptsBracket" points)

/-- `decodeBitString(data)`: `i32` bit length then MSB-first bits; bits
past the end of the data render as `0`. -/
def decodeBitString (data : GoStr) : Value :=
  if data.length < 4 then .vStr []
  else
    let bitlen := toI32 (leU32 data 0)
    if bitlen = 0 then .vStr []
    else
      .vStr ((List.range bitlen.toNat).map (fun i =>
        let byteIdx := 4 + i / 8
        let bitIdx := 7 - i % 8
        if byteIdx < data.length ∧ data.getD byteIdx 0 &&& (1 <<< bitIdx) ≠ 0
        then 49 else 48))

/-- `decodeInterval(data)`. -/
def decodeInterval (data : GoStr) : Value :=
  if data.length < 16 then .vStr (gs "0")
  else .vFmt "interval" [toI64 (leU64 data 0), toI32 (leU32 data 8), toI32 (leU32 data 12)]

/-- `decodeInet(data)`. -/
def decodeInet (data : GoStr) : Value :=
  if data.length < 4 then .vStr []
  else
    let family := data.getD 0 0
    let bits := data.getD 1 0
    let addrLen := data.getD 3 0
    if family = 2 ∧ addrLen = 4 ∧ 8 ≤ data.length then
      .vFmt "inet4" [(data.getD 4 0 : Int), (data.getD 5 0 : Int),
        (data.getD 6 0 : Int), (data.getD 7 0 : Int), (bits : Int)]
    else if family = 3 ∧ addrLen = 16 ∧ 20 ≤ data.length then
      .vFmt "inet6" (((List.range 8).map (fun i => (beU16 data (4 + i * 2) : Int))) ++ [(bits : Int)])
    else .vFmt "inetraw" (data.map Int.ofNat)

/-- `decodeNumericRange(data, flags)`: simplified rendering from the flags
byte alone. -/
def decodeNumericRange (flags : Nat) : Value := .vFmt "numrange" [(flags : Int)]

/-- `decodeRange(data, oid)` with the recursive decoder passed in: flags
byte at the end, bounds re-checked before each fixed-width bound read. -/
def decodeRangeWith (decode : GoStr → Nat → Option Value) (data : GoStr) (oid : Nat) :
    Option Value :=
  if data.length < 5 then some (.vStr (gs "empty"))
  else
    let flags := data.getD (data.length - 1) 0
    if flags &&& 0x01 ≠ 0 then some (.vStr (gs "empty"))
    else
      let lbInf := flags &&& 0x08 ≠ 0
      let ubInf := flags &&& 0x10 ≠ 0
      let elem : Option (Nat × Nat) :=
        match oid with
        | 3904 => some (23, 4) | 3926 => some (20, 8) | 3912 => some (1082, 4)
        | 3908 => some (1114, 8) | 3910 => some (1184, 8)
        | _ => none
      if oid = 3906 then some (decodeNumericRange flags)
      else
        match elem with
        | none => some (.vFmt "rangeraw" (data.map Int.ofNat))
        | some (elemOid, elemSize) => do
            let dataEnd := data.length - 1
            let offset := 4
            if ¬lbInf ∧ dataEnd < offset + elemSize then some (.vStr (gs "[?,?]"))
            else do
              let lb ← if lbInf then some none
                       else (decode ((data.drop offset).take elemSize) elemOid).map some
              let offset := if lbInf then offset else offset + elemSize
              let offset := if ¬ubInf ∧ 1 < elemSize then alignGo offset elemSize else offset
              if ¬ubInf ∧ dataEnd < offset + elemSize then some (.vStr (gs "[?,?]"))
              else do
                let ub ← if ubInf then some none
                         else (decode ((data.drop offset).take elemSize) elemOid).map some
                pure (.vRender "range"
                  ([.vInt (flags : Int)] ++ (lb.map ([·])).getD [] ++ (ub.map ([·])).getD []))

/-- `ReadVarlena(data)` from pgdump.go: `(payload, bytesConsumed)`; the
payload is `none` for the Go `nil` slice (short/invalid headers and TOAST
pointers).  Every slice it takes is bounds-checked, so it never panics. -/
def ReadVarlena (data : GoStr) : Option GoStr × Nat :=
  match data with
  | [] => (none, 0)
  | first :: _ =>
    if first &&& 1 = 1 ∧ first ≠ 1 then
      let totalLen := first >>> 1
      if totalLen ≤ 1 ∨ data.length < totalLen then (none, 1)
      else (some ((data.drop 1).take (totalLen - 1)), totalLen)
    else if first = 1 then (none, 1)
    else if data.length < 4 then (none, 0)
    else
      let header := leU32 data 0
      let totalLen := header >>> 2
      if totalLen < 4 ∨ data.length < totalLen then (none, 4)
      else (some ((data.drop 4).take (totalLen - 4)), totalLen)

/-- `decodeScalar(data, oid)` with the recursive decoder passed in (used
by the range arms).  `data` is nonempty — `DecodeType` returns early on
empty input.  Arms that index or slice beyond a bounds check model the Go
panic with `none`; every other arm mirrors the source case for the same
OID literal. -/
def decodeScalarWith (decode : GoStr → Nat → Option Value) (data : GoStr) (oid : Nat) :
    Option Value :=
  match oid with
  | 16 => some (.vBool (data.getD 0 0 ≠ 0))
  | 18 => some (.vStr (data.take 1))
  | 19 => some (.vStr (cstring data 64))
  | 21 => (i16v data 0).map .vInt16
  | 23 => (i32v data 0).map .vInt32
  | 28 => (i32v data 0).map .vInt32
  | 29 => (i32v data 0).map .vInt32
  | 20 => (i64v data 0).map .vInt64
  | 26 => (u32v data 0).map .vUInt32
  | 27 => do
      let b ← u32v data 0
      let o ← u16v data 4
      pure (.vFmt "tid" [(b : Int), (o : Int)])
  | 700 => (u32v data 0).map .vFloat32
  | 701 => (u64v data 0).map .vFloat64
  | 790 => (i64v data 0).map (fun cents => .vFmt "money" [cents])
  | 25 => some (safeStringGo data)
  | 1043 => some (safeStringGo data)
  | 1042 => some (safeStringGo data)
  | 114 => some (safeStringGo data)
  | 142 => some (safeStringGo data)
  | 4072 => some (safeStringGo data)
  | 17 => some (.vStr (gs "\\x" ++ hexBytes data))
  | 1560 => some (decodeBitString data)
  | 1562 => some (decodeBitString data)
  | 1082 => (i32v data 0).map (fun days => .vFmt "date" [days])
  | 1083 => (i64v data 0).map (fun us => .vFmt "time" [us])
  | 1266 => do
      let us ← i64v data 0
      let tz ← i32v data 8
      pure (.vFmt "timetz" [us, tz])
  | 1114 => (i64v data 0).map (fun us => .vFmt "timestamp" [us])
  | 1184 => (i64v data 0).map (fun us => .vFmt "timestamp" [us])
  | 1186 => some (decodeInterval data)
  | 829 => do
      let _ ← slicev data 0 6
      pure (.vFmt "macaddr" ((data.take 6).map Int.ofNat))
  | 774 => do
      let _ ← slicev data 0 8
      pure (.vFmt "macaddr8" ((data.take 8).map Int.ofNat))
  | 869 => some (decodeInet data)
  | 650 => some (decodeInet data)
  | 2950 => (pgdumpUUIDStr data).map .vStr
  | 3220 => do
      let a ← u32v data 0
      let b ← u32v data 4
      pure (.vFmt "pglsn" [(a : Int), (b : Int)])
  | 600 => some (decodePoint data)
  | 601 => do
      let a ← slicev data 0 16
      let b ← slicev data 16 32
      pure (.vRender "lseg" [decodePoint a, decodePoint b])
  | 603 => do
      let a ← slicev data 0 16
      let b ← slicev data 16 32
      pure (.vRender "box" [decodePoint a, decodePoint b])
  | 628 => do
      let a ← u64v data 0
      let b ← u64v data 8
      let c ← u64v data 16
      pure (.vFmt "line" [(a : Int), (b : Int), (c : Int)])
  | 718 => do
      let a ← slicev data 0 16
      let r ← u64v data 16
      pure (.vRender "circle" [decodePoint a, .vFloat64 r])
  | 602 => decodePathOrPolygon data 602
  | 604 => decodePathOrPolygon data 604
  | 1700 => some (DecodeNumeric data)
  | 3614 => some (safeStringGo data)
  | 3615 => some (safeStringGo data)
  | 3802 =>
      (ParseJSONB data).map (fun v =>
        match v with
        | .vNull => safeStringGo data
        | v => v)
  | 3904 => decodeRangeWith decode data 3904
  | 3926 => decodeRangeWith decode data 3926
  | 3906 => decodeRangeWith decode data 3906
  | 3908 => decodeRangeWith decode data 3908
  | 3910 => decodeRangeWith decode data 3910
  | 3912 => decodeRangeWith decode data 3912
  | _ => some (safeStringGo data)

/-- Go `int32` wrap-around, for the element-count product in
`decodeArray`. -/
def wrap32 (z : Int) : Int := (z + 2147483648) % 4294967296 - 2147483648

/-- The dimensions product `total *= i32(raw, 12+i*4)` with `int32`
wrap-around; the reads were bounds-checked only by `len(raw) ≥ 20`, so a
large `ndim` can read past the end — `i32v` records that panic. -/
def arrayTotal (raw : GoStr) : Nat → Nat → Int → Option Int
  | _, 0, acc => some acc
  | i, r + 1, acc => do
      let d ← i32v raw (12 + i * 4)
      arrayTotal raw (i + 1) r (wrap32 (acc * d))

/-- `parseArrayElements(raw, off, count, …)` with the recursive decoder
passed in; the null-bitmap test, the fixed-width bounds `break`, the
4-byte realignment of every varlena element after the first, and the
unchecked varlena payload slices (which can panic) follow the source. -/
def parseArrayElements (decode : GoStr → Nat → Option Value) (raw : GoStr)
    (elemOid : Nat) (elemLen : Nat) (fixed : Bool) (nulls : Option GoStr) :
    Nat → Nat → Nat → List Value → Option (List Value)
  | 0, _, _, acc => some acc
  | remaining + 1, i, off, acc =>
      if nulls.isSome ∧ (nulls.getD []).getD (i / 8) 0 &&& (1 <<< (i % 8)) = 0 then
        parseArrayElements decode raw elemOid elemLen fixed nulls remaining (i + 1) off
          (acc ++ [.vNull])
      else if fixed then
        if raw.length < off + elemLen then some acc
        else do
          let v ← decode ((raw.drop off).take elemLen) elemOid
          parseArrayElements decode raw elemOid elemLen fixed nulls remaining (i + 1)
            (off + elemLen) (acc ++ [v])
      else
        let off := if 0 < i then alignGo off 4 else off
        if raw.length ≤ off then some acc
        else
          let hdr := raw.getD off 0
          if hdr &&& 1 = 1 then
            let n := hdr >>> 1
            do
              let payload ← slicev raw (off + 1) (off + n)
              let v ← decode payload elemOid
              parseArrayElements decode raw elemOid elemLen fixed nulls remaining (i + 1)
                (off + n) (acc ++ [v])
          else
            if raw.length < off + 4 then some acc
            else
              let n := leU32 raw off >>> 2
              do
                let payload ← slicev raw (off + 4) (off + n)
                let v ← decode payload elemOid
                parseArrayElements decode raw elemOid elemLen fixed nulls remaining (i + 1)
                  (off + n) (acc ++ [v])

/-- `decodeArray(raw, elemOid)` with the recursive decoder passed in.
The Go null-bitmap slice `raw[dataStart : dataStart+(total+7)/8]` is not
bounds-checked (`slicev` records the panic), and the Go `nil` returns for
bad headers map to `vNull` (a typed-nil Go slice; nothing inspects the
difference). -/
def decodeArrayWith (decode : GoStr → Nat → Option Value) (raw : GoStr) (elemOid : Nat) :
    Option Value :=
  if raw.length < 20 then some .vNull
  else
    let ndim := toI32 (leU32 raw 0)
    if ndim ≤ 0 ∨ 6 < ndim then some .vNull
    else do
      let dataoff ← i32v raw 4
      let total ← arrayTotal raw 0 ndim.toNat 1
      if total ≤ 0 then some .vNull
      else do
        let dataStart := 12 + ndim.toNat * 8
        let nulls ← if 0 < dataoff then
                      (slicev raw dataStart (dataStart + (total.toNat + 7) / 8)).map some
                    else some none
        let dataStart := if 0 < dataoff then dataoff.toNat else dataStart
        let (elemLen, fixed) :=
          match fixedLengths elemOid with
          | some l => (l, true)
          | none => (0, false)
        (parseArrayElements decode raw elemOid elemLen fixed nulls total.toNat 0 dataStart
          []).map .vList

/-- `DecodeType`, fuel-indexed.  Every nested `DecodeType` call in the
source receives a strictly shorter slice, so fuel `data.length + 1` is
never exhausted; the zero-fuel arm is unreachable. -/
def DecodeTypeF : Nat → GoStr → Nat → Option Value
  | 0, _, _ => some .vNull
  | fuel + 1, data, oid =>
      if data.length = 0 then some .vNull
      else
        match arrayElemTypes oid with
        | some elemOid => decodeArrayWith (DecodeTypeF fuel) data elemOid
        | none => decodeScalarWith (DecodeTypeF fuel) data oid

/-- `DecodeType(data, oid)`: `none` is a Go panic, `some vNull` a Go `nil`
return. -/
def DecodeType (data : GoStr) (oid : Nat) : Option Value :=
  DecodeTypeF (data.length + 1) data oid

/-- `decodeArray(raw, elemOid)` as the source names it. -/
def decodeArray (raw : GoStr) (elemOid : Nat) : Option Value :=
  decodeArrayWith (fun d o => DecodeTypeF d.length d o) raw elemOid

/-! ## Page layout (src/pgdump/page.go) -/

/-- `PageHeader` (the fields `ParsePage` uses). -/
structure PageHeader where
  lower : Nat
  upper : Nat
  pageSize : Nat
  version : Nat
  deriving Repr, DecidableEq

/-- `ItemID`: a line pointer. -/
structure ItemID where
  offset : Nat
  flags : Nat
  length : Nat
  deriving Repr, DecidableEq

/-- `parseHeader(data)`: `lower` at 12, `upper` at 14, the packed
pagesize/version word at 18 — all within the 8192 bytes the caller
checked. -/
def parseHeader (data : GoStr) : PageHeader :=
  let psv := leU16 data 18
  { lower := leU16 data 12
    upper := leU16 data 14
    pageSize := psv &&& 0xFF00
    version := psv &&& 0x00FF }

/-- `validHeader(h)`: page size from the fixed set, layout version 1–10,
`24 ≤ lower ≤ upper ≤ pagesize`. -/
def validHeader (h : PageHeader) : Bool :=
  (h.pageSize == 8192 || h.pageSize == 16384 || h.pageSize == 32768) &&
    1 ≤ h.version && h.version ≤ 10 &&
    24 ≤ h.lower && h.upper ≤ h.pageSize && h.lower ≤ h.upper

/-- The `parseItems` loop, fuel-bounded (`fuel = lower` is enough: the
offset starts at 24 and grows by 4 every iteration).  The `u32` read can
run past the end of the page when `lower` exceeds the page length — Go
panics there, recorded by `none`. -/
def parseItemsAux (data : GoStr) (lower : Nat) : Nat → Nat → Option (List ItemID)
  | _, 0 => some []
  | off, fuel + 1 =>
      if off < lower then do
        let raw ← u32v data off
        let rest ← parseItemsAux data lower (off + 4) fuel
        pure ({ offset := raw &&& 0x7FFF, flags := (raw >>> 15) &&& 0x03,
                length := (raw >>> 17) &&& 0x7FFF } :: rest)
      else some []

/-- `parseItems(data, h)`: the line-pointer array from byte 24 to `lower`
in 4-byte strides. -/
def parseItems (data : GoStr) (h : PageHeader) : Option (List ItemID) :=
  parseItemsAux data h.lower 24 h.lower

/-! ## Heap tuples (src/pgdump/tuple.go) -/

/-- `HeapTupleHeader`. -/
structure HeapTupleHeader where
  thoff : Nat
  natts : Nat
  infomask : Nat
  xminCommitted : Bool
  xmaxCommitted : Bool
  xmaxInvalid : Bool
  hasNull : Bool
  deriving Repr, DecidableEq

/-- `HeapTupleData`; `bitmap = none` is the Go `nil` slice. -/
structure HeapTupleData where
  header : HeapTupleHeader
  bitmap : Option GoStr
  data : GoStr
  deriving Repr, DecidableEq

/-- `ParseHeapTuple(data)`: `none` is the Go `nil` return for tuples
shorter than the 23-byte header or with `hoff` past the end; all reads
are covered by those two checks. -/
def ParseHeapTuple (data : GoStr) : Option HeapTupleData :=
  if data.length < 23 then none
  else
    let infomask := leU16 data 20
    let infomask2 := leU16 data 18
    let hoff := data.getD 22 0
    if data.length < hoff then none
    else
      let header : HeapTupleHeader :=
        { thoff := hoff
          natts := infomask2 &&& 0x07FF
          infomask := infomask
          hasNull := infomask &&& 0x0001 ≠ 0
          xminCommitted := infomask &&& 0x0100 ≠ 0
          xmaxCommitted := infomask &&& 0x0400 ≠ 0
          xmaxInvalid := infomask &&& 0x0800 ≠ 0 }
      let bitmapBytes := (header.natts + 7) / 8
      some
        { header := header
          bitmap := if header.hasNull ∧ 23 + bitmapBytes ≤ data.length then
                      some ((data.drop 23).take bitmapBytes)
                    else none
          data := data.drop hoff }

/-- The `IsVisible` method: committed and not (visibly) deleted. -/
def HeapTupleData.IsVisible (t : HeapTupleData) : Bool :=
  t.header.xminCommitted && (t.header.xmaxInvalid || !t.header.xmaxCommitted)

/-- The `IsNull(attnum)` method: bit test in the null bitmap, 1-indexed;
positions past the bitmap read as null. -/
def HeapTupleData.IsNull (t : HeapTupleData) (attnum : Int) : Bool :=
  match t.bitmap with
  | none => false
  | some bm =>
      if attnum ≤ 0 then false
      else
        let byteIdx := (attnum - 1).toNat / 8
        let bitIdx := (attnum - 1).toNat % 8
        if bm.length ≤ byteIdx then true
        else bm.getD byteIdx 0 &&& (1 <<< bitIdx) ≠ 0

/-- `TupleEntry`. -/
structure TupleEntry where
  tuple : HeapTupleData
  pageOffset : Nat
  deriving Repr, DecidableEq

/-- The two `continue` guards of `ParsePage`'s item loop, merged into one
predicate: normal flag, nonzero length, `upper ≤ offset`, and
`offset + length` within the fixed 8192-byte `PageSize` constant. -/
def itemPasses (h : PageHeader) (it : ItemID) : Bool :=
  !(it.flags != 1 || it.length == 0) && !(it.offset < h.upper || 8192 < it.offset + it.length)

/-- Modelled from the spec (§4.B) and claim C2's wording, for refinement
comparison only: pass entries with `flags = normal`, nonzero length,
`upper ≤ offset`, and `offset + length ≤ pagesize` — the page's declared
size, not the 8192 constant. -/
def specItemPasses (h : PageHeader) (it : ItemID) : Bool :=
  it.flags == 1 && 0 < it.length && h.upper ≤ it.offset && it.offset + it.length ≤ h.pageSize

/-- The tuple stage of `ParsePage`: slice the item's byte range (in
bounds: the filter bounded it by 8192 ≤ page length) and keep the parsed
tuples. -/
def tupleStage (data : GoStr) (it : ItemID) : Option TupleEntry :=
  (ParseHeapTuple ((data.drop it.offset).take it.length)).map (⟨·, 0⟩)

/-- `ParsePage(data)`: short input and invalid headers produce no tuples;
otherwise filter the line pointers and parse each surviving byte range. -/
def ParsePage (data : GoStr) : Option (List TupleEntry) :=
  if data.length < 8192 then some []
  else
    let h := parseHeader data
    if !validHeader h then some []
    else do
      let items ← parseItems data h
      pure (items.filterMap (fun it => if itemPasses h it then tupleStage data it else none))

/-! ## Row decoding (the tuple/row reader, `DecodeTuple`/`ReadRows`) -/

/-- `Column` (catalog.go, with the `Align` byte the row decoder consults;
the catalog schema literals leave it zero, selecting the `typeAlign`
fallback). -/
structure Column where
  name : GoStr
  typid : Nat
  len : Int
  num : Int
  align : Nat
  deriving Repr, DecidableEq

/-- A decoded row: Go's `map[string]interface{}` as an insertion-ordered
association list (assignment overwrites; iteration order is irrelevant to
every use below). -/
abbrev Row := List (GoStr × Value)

/-- Go `row[key]` for a possibly missing key: a missing key reads as the
`nil` interface. -/
def rowGet (row : Row) (key : GoStr) : Value :=
  match row.find? (fun kv => kv.1 = key) with
  | some kv => kv.2
  | none => .vNull

/-- `alignFromChar(c)`: `c`/`s`/`i`/`d`, 0 for unknown. -/
def alignFromChar (c : Nat) : Nat :=
  if c = 99 then 1 else if c = 115 then 2 else if c = 105 then 4 else if c = 100 then 8 else 0

/-- `typeAlign(typID, length)` (the row decoder's OID-keyed table with a
length-based default). -/
def typeAlign (typID : Nat) (length : Int) : Nat :=
  match typID with
  | 20 => 8 | 701 => 8 | 1114 => 8 | 1184 => 8 | 1083 => 8 | 790 => 8 | 3220 => 8
  | 600 => 8 | 601 => 8 | 603 => 8 | 628 => 8 | 718 => 8
  | 1186 => 8 | 1266 => 8
  | 23 => 4 | 26 => 4 | 700 => 4 | 1082 => 4 | 28 => 4 | 29 => 4
  | 25 => 4 | 1043 => 4 | 1042 => 4 | 17 => 4 | 114 => 4 | 3802 => 4 | 142 => 4
  | 1700 => 4 | 869 => 4 | 650 => 4 | 602 => 4 | 604 => 4
  | 1560 => 4 | 1562 => 4 | 3614 => 4 | 3615 => 4 | 4072 => 4
  | 3904 => 4 | 3926 => 4 | 3906 => 4 | 3912 => 4 | 3908 => 4 | 3910 => 4
  | 21 => 2 | 27 => 2
  | 16 => 1 | 18 => 1 | 19 => 1 | 2950 => 1 | 829 => 1 | 774 => 1
  | _ =>
      if length = -1 then 4
      else if 8 ≤ length then 8
      else if 4 ≤ length then 4
      else if 2 ≤ length then 2
      else 1

/-- Go's local `max`. -/
def goMax (a b : Nat) : Nat := if b < a then b.max a else a

/-- `readValue(data, offset, typID, length)`: fixed-width, varlena and
C-string dispatch; `none` is a panic propagated out of `DecodeType`. -/
def readValue (data : GoStr) (offset : Nat) (typID : Nat) (length : Int) :
    Option (Value × Nat) :=
  if data.length ≤ offset then some (.vNull, 0)
  else
    let remaining := data.drop offset
    if 0 < length then
      if (remaining.length : Int) < length then some (.vNull, 0)
      else (DecodeType (remaining.take length.toNat) typID).map ((·, length.toNat))
    else if length = -1 then
      match ReadVarlena remaining with
      | (none, consumed) => some (.vNull, goMax consumed 1)
      | (some payload, consumed) => (DecodeType payload typID).map ((·, consumed))
    else
      match cstringAux remaining.length remaining 0 with
      | some s => some (.vStr s, s.length + 1)
      | none => some (.vStr remaining, remaining.length)

/-- The column loop of `DecodeTuple`, structurally on the column list;
`idx` is the Go `range` index, `offset` the running data offset. -/
def decodeTupleLoop (t : HeapTupleData) : List Column → Nat → Nat → Row → Option Row
  | [], _, _, row => some row
  | col :: rest, idx, offset, row =>
      let num := if col.num = 0 then (idx : Int) + 1 else col.num
      let colAlign :=
        let a := alignFromChar col.align
        if a = 0 then typeAlign col.typid col.len else a
      let offset := alignGo offset colAlign
      if t.IsNull num then
        decodeTupleLoop t rest (idx + 1) offset (mapSetGo row col.name .vNull)
      else do
        let (val, consumed) ← readValue t.data offset col.typid col.len
        decodeTupleLoop t rest (idx + 1) (offset + consumed) (mapSetGo row col.name val)

/-- `DecodeTuple(tuple, columns)`: `some none` is the Go `nil` row for an
empty data region; the outer `none` a panic from a column decode. -/
def DecodeTuple (t : HeapTupleData) (columns : List Column) : Option (Option Row) :=
  if t.data.length = 0 then some none
  else (decodeTupleLoop t columns 0 0 []).map some

/-- The page loop of `ReadTuples`, processing page `k` after the first
`k`-many pages (Go walks offsets `0, 8192, …` while a full page remains). -/
def readTuplesPages (data : GoStr) (visibleOnly : Bool) : Nat → Option (List TupleEntry)
  | 0 => some []
  | k + 1 => do
      let prev ← readTuplesPages data visibleOnly k
      let es ← ParsePage ((data.drop (8192 * k)).take 8192)
      pure (prev ++ es.filterMap (fun e =>
        if !visibleOnly || e.tuple.IsVisible then some { e with pageOffset := 8192 * k }
        else none))

/-- `ReadTuples(data, visibleOnly)`: every full 8192-byte page in order. -/
def ReadTuples (data : GoStr) (visibleOnly : Bool) : Option (List TupleEntry) :=
  readTuplesPages data visibleOnly (data.length / 8192)

/-- The row loop of `ReadRows`: decode each tuple, keeping non-nil rows. -/
def readRowsLoop (columns : List Column) : List TupleEntry → Option (List Row)
  | [] => some []
  | e :: rest => do
      let row ← DecodeTuple e.tuple columns
      let rows ← readRowsLoop columns rest
      pure ((row.map ([·])).getD [] ++ rows)

/-- `ReadRows(data, columns, visibleOnly)`. -/
def ReadRows (data : GoStr) (columns : List Column) (visibleOnly : Bool) :
    Option (List Row) := do
  let ts ← ReadTuples data visibleOnly
  readRowsLoop columns ts

/-! ## Catalog bootstrap (src/pgdump/catalog.go) -/

/-- `DatabaseInfo`. -/
structure DatabaseInfo where
  oid : Nat
  name : GoStr
  deriving Repr, DecidableEq

/-- `TableInfo`. -/
structure TableInfo where
  oid : Nat
  filenode : Nat
  name : GoStr
  kind : GoStr
  deriving Repr, DecidableEq

/-- `AttrInfo`. -/
structure AttrInfo where
  name : GoStr
  typid : Nat
  num : Int
  len : Int
  deriving Repr, DecidableEq

/-- `schemaPGDatabase`: `(oid, datname)`. -/
def schemaPGDatabase : List Column :=
  [{ name := gs "oid", typid := 26, len := 4, num := 0, align := 0 },
   { name := gs "datname", typid := 19, len := 64, num := 0, align := 0 }]

/-- `schemaPGClass`: the 17 hard-coded pg_class columns. -/
def schemaPGClass : List Column :=
  [{ name := gs "oid", typid := 26, len := 4, num := 0, align := 0 },
   { name := gs "relname", typid := 19, len := 64, num := 0, align := 0 },
   { name := gs "relnamespace", typid := 26, len := 4, num := 0, align := 0 },
   { name := gs "reltype", typid := 26, len := 4, num := 0, align := 0 },
   { name := gs "reloftype", typid := 26, len := 4, num := 0, align := 0 },
   { name := gs "relowner", typid := 26, len := 4, num := 0, align := 0 },
   { name := gs "relam", typid := 26, len := 4, num := 0, align := 0 },
   { name := gs "relfilenode", typid := 26, len := 4, num := 0, align := 0 },
   { name := gs "reltablespace", typid := 26, len := 4, num := 0, align := 0 },
   { name := gs "relpages", typid := 23, len := 4, num := 0, align := 0 },
   { name := gs "reltuples", typid := 700, len := 4, num := 0, align := 0 },
   { name := gs "relallvisible", typid := 23, len := 4, num := 0, align := 0 },
   { name := gs "reltoastrelid", typid := 26, len := 4, num := 0, align := 0 },
   { name := gs "relhasindex", typid := 16, len := 1, num := 0, align := 0 },
   { name := gs "relisshared", typid := 16, len := 1, num := 0, align := 0 },
   { name := gs "relpersistence", typid := 18, len := 1, num := 0, align := 0 },
   { name := gs "relkind", typid := 18, len := 1, num := 0, align := 0 }]

/-- `schemaPGAttrV15` (contains `attstattarget`). -/
def schemaPGAttrV15 : List Column :=
  [{ name := gs "attrelid", typid := 26, len := 4, num := 0, align := 0 },
   { name := gs "attname", typid := 19, len := 64, num := 0, align := 0 },
   { name := gs "atttypid", typid := 26, len := 4, num := 0, align := 0 },
   { name := gs "attstattarget", typid := 23, len := 4, num := 0, align := 0 },
   { name := gs "attlen", typid := 21, len := 2, num := 0, align := 0 },
   { name := gs "attnum", typid := 21, len := 2, num := 0, align := 0 }]

/-- `schemaPGAttrV16` (no `attstattarget`). -/
def schemaPGAttrV16 : List Column :=
  [{ name := gs "attrelid", typid := 26, len := 4, num := 0, align := 0 },
   { name := gs "attname", typid := 19, len := 64, num := 0, align := 0 },
   { name := gs "atttypid", typid := 26, len := 4, num := 0, align := 0 },
   { name := gs "attlen", typid := 21, len := 2, num := 0, align := 0 },
   { name := gs "attnum", typid := 21, len := 2, num := 0, align := 0 }]

/-- `getOID(row, key)`: the Go type assertion `.(uint32)`, 0 on any other
runtime type. -/
def getOID (row : Row) (key : GoStr) : Nat :=
  match rowGet row key with
  | .vUInt32 n => n
  | _ => 0

/-- `getString(row, key)`: the Go type assertion `.(string)`, empty on
any other runtime type (the keys it is used with decode via `cstring` or
the 1-byte char arm, which always produce plain strings). -/
def getString (row : Row) (key : GoStr) : GoStr :=
  match rowGet row key with
  | .vStr s => s
  | _ => []

/-- The filter loop of `ParsePGDatabase`: keep rows with a positive oid
and a nonempty name. -/
def pgDatabaseLoop : List Row → List DatabaseInfo
  | [] => []
  | row :: rest =>
      let oid := getOID row (gs "oid")
      let name := getString row (gs "datname")
      if 0 < oid ∧ name ≠ [] then { oid, name } :: pgDatabaseLoop rest
      else pgDatabaseLoop rest

/-- `ParsePGDatabase(data)`. -/
def ParsePGDatabase (data : GoStr) : Option (List DatabaseInfo) :=
  (ReadRows data schemaPGDatabase true).map pgDatabaseLoop

/-- Go map assignment for the pg_class table map (keyed by filenode). -/
def classMapSet (m : List (Nat × TableInfo)) (k : Nat) (v : TableInfo) :
    List (Nat × TableInfo) :=
  match m with
  | [] => [(k, v)]
  | (k', v') :: rest => if k' = k then (k, v) :: rest else (k', v') :: classMapSet rest k v

/-- The loop of `ParsePGClass`: index rows with a positive relfilenode. -/
def pgClassLoop : List Row → List (Nat × TableInfo) → List (Nat × TableInfo)
  | [], m => m
  | row :: rest, m =>
      let fn := getOID row (gs "relfilenode")
      if 0 < fn then
        pgClassLoop rest (classMapSet m fn
          { oid := getOID row (gs "oid"), filenode := fn,
            name := getString row (gs "relname"), kind := getString row (gs "relkind") })
      else pgClassLoop rest m

/-- `ParsePGClass(data)`: a map from relfilenode to table info, as an
association list in first-insertion order (Go map iteration order is
unspecified; nothing below depends on the order). -/
def ParsePGClass (data : GoStr) : Option (List (Nat × TableInfo)) :=
  (ReadRows data schemaPGClass true).map (pgClassLoop · [])

/-- The 5-row attnum self-check of `detectAttrSchema`: row `i` must have
`attnum = i+1` for `i < 5`. -/
def attnumSeqCheck (rows : List Row) : Bool :=
  (List.range 5).all (fun i => toIntGo (rowGet (rows.getD i []) (gs "attnum")) == (i : Int) + 1)

/-- `detectAttrSchema(data, version)`: explicit hints pick a schema
directly; otherwise decode with the v16 layout and accept it only when
the first five rows carry attnums 1..5. -/
def detectAttrSchema (data : GoStr) (version : Int) : Option (List Column) :=
  if 16 ≤ version then some schemaPGAttrV16
  else if 12 ≤ version then some schemaPGAttrV15
  else do
    let rows ← ReadRows data schemaPGAttrV16 true
    if 5 ≤ rows.length ∧ attnumSeqCheck rows then pure schemaPGAttrV16
    else pure schemaPGAttrV15

/-- Append an attribute to its relation's bucket (`result[relid] =
append(result[relid], …)`), keeping first-insertion bucket order. -/
def attrMapAdd (m : List (Nat × List AttrInfo)) (k : Nat) (a : AttrInfo) :
    List (Nat × List AttrInfo) :=
  match m with
  | [] => [(k, [a])]
  | (k', l) :: rest => if k' = k then (k', l ++ [a]) :: rest else (k', l) :: attrMapAdd rest k a

/-- The row loop of `ParsePGAttribute`. -/
def pgAttributeLoop : List Row → List (Nat × List AttrInfo) → List (Nat × List AttrInfo)
  | [], m => m
  | row :: rest, m =>
      let relid := getOID row (gs "attrelid")
      let num := toIntGo (rowGet row (gs "attnum"))
      if relid = 0 ∨ num ≤ 0 then pgAttributeLoop rest m
      else
        pgAttributeLoop rest (attrMapAdd m relid
          { name := getString row (gs "attname"),
            typid := getOID row (gs "atttypid"),
            num := num, len := toIntGo (rowGet row (gs "attlen")) })

/-- Ascending insertion by `attnum` (the source uses an unstable
`sort.Slice`; ties keep bucket order here, which no caller observes). -/
def insertAttr (a : AttrInfo) : List AttrInfo → List AttrInfo
  | [] => [a]
  | b :: rest => if a.num < b.num then a :: b :: rest else b :: insertAttr a rest

/-- Sort a bucket by `attnum`. -/
def sortAttrs : List AttrInfo → List AttrInfo
  | [] => []
  | a :: rest => insertAttr a (sortAttrs rest)

/-- `ParsePGAttribute(data, pgVersion)`. -/
def ParsePGAttribute (data : GoStr) (pgVersion : Int) :
    Option (List (Nat × List AttrInfo)) := do
  let schema ← detectAttrSchema data pgVersion
  let rows ← ReadRows data schema true
  pure ((pgAttributeLoop rows []).map (fun kv => (kv.1, sortAttrs kv.2)))

/-! ## Dump orchestrator (src/pgdump/pgdump.go) -/

/-- `Options`. -/
structure Options where
  databaseFilter : GoStr := []
  tableFilter : GoStr := []
  listOnly : Bool := false
  skipSystemTables : Bool := false
  postgresVersion : Int := 0
  deriving Repr, DecidableEq

/-- `withDefaults(opts)`: a nil options pointer means
`{SkipSystemTables: true}`. -/
def withDefaults (opts : Option Options) : Options :=
  opts.getD { skipSystemTables := true }

/-- `ColumnInfo`. -/
structure ColumnInfo where
  name : GoStr
  type : String
  typid : Nat
  deriving Repr, DecidableEq

/-- `TypeName(oid)` (renamed: the Lean environment already has a `TypeName`): the `typeNames` table, else `oid:<n>`. -/
def typeNameGo (oid : Nat) : String :=
  match oid with
  | 16 => "bool" | 17 => "bytea" | 18 => "char" | 19 => "name"
  | 20 => "int8" | 21 => "int2" | 23 => "int4" | 25 => "text"
  | 26 => "oid" | 27 => "tid" | 28 => "xid" | 29 => "cid"
  | 114 => "json" | 142 => "xml"
  | 600 => "point" | 601 => "lseg" | 602 => "path" | 603 => "box"
  | 604 => "polygon" | 628 => "line" | 718 => "circle"
  | 650 => "cidr" | 700 => "float4" | 701 => "float8"
  | 774 => "macaddr8" | 790 => "money" | 829 => "macaddr" | 869 => "inet"
  | 1042 => "bpchar" | 1043 => "varchar"
  | 1082 => "date" | 1083 => "time" | 1114 => "timestamp"
  | 1184 => "timestamptz" | 1186 => "interval" | 1266 => "timetz"
  | 1560 => "bit" | 1562 => "varbit"
  | 1700 => "numeric" | 2950 => "uuid" | 3220 => "pg_lsn"
  | 3614 => "tsvector" | 3615 => "tsquery"
  | 3802 => "jsonb" | 4072 => "jsonpath"
  | 3904 => "int4range" | 3906 => "numrange" | 3908 => "tsrange"
  | 3910 => "tstzrange" | 3912 => "daterange" | 3926 => "int8range"
  | n => "oid:" ++ toString n

/-- `TableDump`. -/
structure TableDump where
  oid : Nat
  name : GoStr
  filenode : Nat
  kind : GoStr
  columns : List ColumnInfo
  rows : List Row
  rowCount : Nat
  deriving Repr

/-- `DatabaseDump`. -/
structure DatabaseDump where
  oid : Nat
  name : GoStr
  tables : List TableDump
  deriving Repr

/-- `DumpResult`. -/
structure DumpResult where
  databases : List DatabaseDump
  deriving Repr

/-- `FileReader`: read table data by filenode; errors are Go `error`
values. -/
abbrev FileReader := Nat → Except String GoStr

/-- Does `pfx` start `s`? (`strings.HasPrefix`, byte-wise.) -/
def strPfx : GoStr → GoStr → Bool
  | [], _ => true
  | _, [] => false
  | p :: ps, c :: cs => p == c && strPfx ps cs

/-- ASCII `strings.ToLower` (the Go original also folds non-ASCII
letters; the filters below are only compared, never proved about, so the
ASCII fold suffices). -/
def toLowerGo (s : GoStr) : GoStr :=
  s.map (fun b => if 65 ≤ b ∧ b ≤ 90 then b + 32 else b)

/-- `strings.Contains`, byte-wise. -/
def strContains (s sub : GoStr) : Bool :=
  (List.range (s.length + 1)).any (fun i => strPfx sub (s.drop i))

/-- `dumpTable(filenode, info, attrs, reader, opts)`: always yields a
table entry; data-read failures and empty heaps leave it schema-only. -/
def dumpTable (filenode : Nat) (info : TableInfo) (attrs : List AttrInfo)
    (reader : Option FileReader) (opts : Options) : Option TableDump :=
  let t : TableDump :=
    { oid := info.oid, name := info.name, filenode := filenode, kind := info.kind,
      columns := attrs.map (fun a =>
        { name := a.name, type := typeNameGo a.typid, typid := a.typid }),
      rows := [], rowCount := 0 }
  match reader with
  | none => some t
  | some reader =>
      if opts.listOnly then some t
      else
        match reader filenode with
        | .error _ => some t
        | .ok data =>
            if data.length = 0 then some t
            else do
              let cols := attrs.map (fun a =>
                { name := a.name, typid := a.typid, len := a.len, num := a.num,
                  align := 0 : Column })
              let rows ← ReadRows data cols true
              pure { t with rows := rows, rowCount := rows.length }

/-- The table loop of `DumpDatabaseFromFiles` (the Go `range` over the
filenode map; iteration order is unspecified in Go and taken here in
map-insertion order). -/
def tableLoop (attrs : List (Nat × List AttrInfo)) (reader : Option FileReader)
    (opts : Options) : List (Nat × TableInfo) → Option (List TableDump)
  | [] => some []
  | (filenode, info) :: rest =>
      if info.kind ≠ gs "r" ∧ info.kind ≠ [] then tableLoop attrs reader opts rest
      else if opts.skipSystemTables ∧ strPfx (gs "pg_") info.name then
        tableLoop attrs reader opts rest
      else if opts.tableFilter ≠ [] ∧
          ¬strContains (toLowerGo info.name) (toLowerGo opts.tableFilter) then
        tableLoop attrs reader opts rest
      else do
        let bucket := ((attrs.find? (fun kv => kv.1 = info.oid)).map (·.2)).getD []
        let t ← dumpTable filenode info bucket reader opts
        let ts ← tableLoop attrs reader opts rest
        pure (t :: ts)

/-- `DumpDatabaseFromFiles(classData, attrData, reader, opts)`: parses
the two catalogs and dumps every surviving table; the Go function never
returns a non-nil error. -/
def DumpDatabaseFromFiles (classData attrData : GoStr) (reader : Option FileReader)
    (opts0 : Option Options) : Option DatabaseDump := do
  let opts := withDefaults opts0
  let tables ← ParsePGClass classData
  let attrs ← ParsePGAttribute attrData opts.postgresVersion
  let ts ← tableLoop attrs reader opts tables
  pure { oid := 0, name := [], tables := ts }

/-- The path-keyed read abstraction standing for `os.ReadFile` under the
data directory (paths are relative to it). -/
abbrev Env := String → Except String GoStr

/-- `exceptGetD`: the Go idiom `data, _ := os.ReadFile(...)` — a failed
read leaves the nil (empty) slice. -/
def exceptGetD (e : Except String GoStr) : GoStr :=
  match e with
  | .ok v => v
  | .error _ => []

/-- The database loop of `DumpDataDir`: skip `template*` names and
filter mismatches, skip databases whose pg_class is unreadable or empty,
and append each produced dump. -/
def dbLoop (env : Env) (opts : Options) : List DatabaseInfo → List DatabaseDump →
    Option (List DatabaseDump)
  | [], acc => some acc
  | db :: rest, acc =>
      if strPfx (gs "template") db.name then dbLoop env opts rest acc
      else if opts.databaseFilter ≠ [] ∧ db.name ≠ opts.databaseFilter then
        dbLoop env opts rest acc
      else
        let basePath := "base/" ++ toString db.oid
        let classData := exceptGetD (env (basePath ++ "/1259"))
        let attrData := exceptGetD (env (basePath ++ "/1249"))
        if classData.length = 0 then dbLoop env opts rest acc
        else do
          let reader : FileReader := fun fn => env (basePath ++ "/" ++ toString fn)
          let dump ← DumpDatabaseFromFiles classData attrData (some reader) (some opts)
          dbLoop env opts rest (acc ++ [{ dump with oid := db.oid, name := db.name }])

/-- `DumpDataDir(dataDir, opts)` over the read abstraction: only a failed
read of `global/1262` returns an error; otherwise the per-database loop
runs and the result is wrapped in a non-error return. -/
def DumpDataDir (env : Env) (opts0 : Option Options) : Option (Except String DumpResult) :=
  let opts := withDefaults opts0
  match env "global/1262" with
  | .error e => some (.error e)
  | .ok dbData =>
      match ParsePGDatabase dbData with
      | none => none
      | some dbs =>
          match dbLoop env opts dbs [] with
          | none => none
          | some l => some (.ok { databases := l })

/-! ## Evaluation lemmas for concrete pages -/

theorem set_replicate_zero : ∀ (n i : Nat),
    (List.replicate n (0 : Nat)).set i 0 = List.replicate n 0 := by
  intro n
  induction n with
  | zero => intro i; rfl
  | succ n ih =>
      intro i
      cases i with
      | zero => rw [List.replicate_succ]; rfl
      | succ i =>
          rw [List.replicate_succ, List.set_cons_succ, ih i, ← List.replicate_succ]

theorem set_rep_front (l : GoStr) : ∀ (n i : Nat), i < n →
    (List.replicate n (0 : Nat) ++ l).set i 0 = List.replicate n 0 ++ l := by
  intro n
  induction n with
  | zero => intro i h; omega
  | succ n ih =>
      intro i h
      cases i with
      | zero => rw [List.replicate_succ]; rfl
      | succ i =>
          rw [List.replicate_succ, List.cons_append, List.set_cons_succ,
            ih i (by omega), ← List.cons_append, ← List.replicate_succ]

theorem getD_replicate_zero : ∀ (n i : Nat), (List.replicate n (0 : Nat)).getD i 0 = 0 := by
  intro n
  induction n with
  | zero => intro i; cases i <;> rfl
  | succ n ih =>
      intro i
      cases i with
      | zero => rw [List.replicate_succ]; rfl
      | succ i => rw [List.replicate_succ]; exact ih i

theorem getD_rep_front (l : GoStr) : ∀ (n i : Nat), i < n →
    (List.replicate n (0 : Nat) ++ l).getD i 0 = 0 := by
  intro n
  induction n with
  | zero => intro i h; omega
  | succ n ih =>
      intro i h
      cases i with
      | zero => rw [List.replicate_succ]; rfl
      | succ i =>
          rw [List.replicate_succ, List.cons_append]
          exact ih i (by omega)

theorem getD_rep_back : ∀ (l : GoStr) (m i : Nat),
    (l ++ List.replicate m (0 : Nat)).getD i 0 = l.getD i 0 := by
  intro l
  induction l with
  | nil =>
      intro m i
      rw [List.nil_append, getD_replicate_zero]
      cases i <;> rfl
  | cons a l ih =>
      intro m i
      cases i with
      | zero => rfl
      | succ i => exact ih m i

theorem leWords_rep_append (l : GoStr) :
    ∀ k, leWords (List.replicate (4 * k) (0 : Nat) ++ l) =
      List.replicate k 0 ++ leWords l := by
  intro k
  induction k with
  | zero => rfl
  | succ k ih =>
      have h4 : 4 * (k + 1) = 4 + 4 * k := by ring
      rw [h4, List.replicate_add, List.append_assoc]
      have h0 : List.replicate 4 (0 : Nat) = [0, 0, 0, 0] := rfl
      rw [h0]
      show (0 + 256 * 0 + 65536 * 0 + 16777216 * 0) ::
      leWords (List.replicate (4 * k) 0 ++ l) = List.replicate (k + 1) 0 ++ leWords l
      rw [ih, List.replicate_succ]
      norm_num

theorem foldl_checksumComp_zero : ∀ k,
    (List.replicate k (0 : Nat)).foldl checksumComp 0 = 0 := by
  intro k
  induction k with
  | zero => rfl
  | succ k ih =>
      rw [List.replicate_succ, List.foldl_cons]
      have h0 : checksumComp 0 0 = 0 := by decide
      rw [h0]
      exact ih

theorem pgSums_zeros : ∀ (k i : Nat),
    pgSums (List.replicate k (0 : Nat)) i (List.replicate 32 0) = List.replicate 32 0 := by
  intro k
  induction k with
  | zero => intro i; rfl
  | succ k ih =>
      intro i
      rw [List.replicate_succ]
      show pgSums (List.replicate k 0) (i + 1)
        ((List.replicate 32 0).set (i % 32)
          ((((List.replicate 32 (0 : Nat)).getD (i % 32) 0 * 0x01000193) &&& 0xFFFFFFFF) ^^^ 0)) =
        List.replicate 32 0
      rw [getD_replicate_zero, Nat.zero_mul, Nat.zero_and, Nat.zero_xor,
        set_replicate_zero]
      exact ih (i + 1)

theorem pgSums_append (l₁ l₂ : List Nat) : ∀ (i : Nat) (s : List Nat),
    pgSums (l₁ ++ l₂) i s = pgSums l₂ (i + l₁.length) (pgSums l₁ i s) := by
  induction l₁ with
  | nil => intro i s; simp [pgSums]
  | cons w rest ih =>
      intro i s
      show pgSums (rest ++ l₂) (i + 1) _ = _
      rw [ih]
      congr 1
      simp
      omega

/-! ## Claim C6: the page checksum actually compared

The checksum `VerifyPageChecksum` compares is `computePageChecksum` — the
rotate-and-XOR `checksumComp` recurrence, which never multiplies by the
FNV prime.  The 32-way rolling FNV-1a the spec describes exists only in
the unused `pgChecksumBlock`.  The two disagree already on the page that
is zero except for byte 8190 = 1 (last 32-bit word 0x00010000), at block
number 0 — where the spec's algorithm and `pgChecksumBlock` coincide, so
the ambiguity about where the block number enters does not matter. -/

/-- The failing page for claim C6: zero except byte 8190 = 1. -/
def pageC6 : GoStr := List.replicate 8190 0 ++ [1, 0]

theorem pageC6_length : pageC6.length = 8192 := by
  rw [pageC6, List.length_append, List.length_replicate]
  rfl

theorem pageC6_set89 : (pageC6.set 8 0).set 9 0 = pageC6 := by
  rw [pageC6, set_rep_front _ _ _ (by norm_num), set_rep_front _ _ _ (by norm_num)]

theorem pageC6_leWords : leWords pageC6 = List.replicate 2047 0 ++ [65536] := by
  have hsplit : pageC6 = List.replicate (4 * 2047) 0 ++ [0, 0, 1, 0] := by
    rw [pageC6, show (8190 : Nat) = 4 * 2047 + 2 from by norm_num, List.replicate_add,
      List.append_assoc]
    rfl
  rw [hsplit, leWords_rep_append]
  rfl

theorem pageCopy8192_pageC6 : pageCopy8192 pageC6 = pageC6 := by
  rw [pageCopy8192, pageC6_length]
  have h1 : List.replicate (8192 - 8192) (0 : Nat) = [] := rfl
  rw [h1, List.append_nil]
  exact List.take_of_length_le (le_of_eq pageC6_length)

theorem computePageChecksum_unfold (page : GoStr) (b : Nat) :
    computePageChecksum page b =
      ((leWords (((pageCopy8192 page).set 8 0).set 9 0)).foldl checksumComp 0 ^^^
        (b &&& 0xFFFFFFFF)) >>> 16 ^^^
      (((leWords (((pageCopy8192 page).set 8 0).set 9 0)).foldl checksumComp 0 ^^^
        (b &&& 0xFFFFFFFF)) &&& 0xFFFF) := rfl

theorem computePageChecksum_pageC6 : computePageChecksum pageC6 0 = 2 := by
  rw [computePageChecksum_unfold, pageCopy8192_pageC6, pageC6_set89, pageC6_leWords,
    List.foldl_append, foldl_checksumComp_zero]
  decide

theorem pgChecksumBlock_unfold (page : GoStr) (b : Nat) :
    pgChecksumBlock page b =
      ((pgSums (leWords (if 9 < page.length then (page.set 8 0).set 9 0 else page)) 0
          (List.replicate 32 (b &&& 0xFFFFFFFF))).foldl (· ^^^ ·) 0) >>> 16 ^^^
      (((pgSums (leWords (if 9 < page.length then (page.set 8 0).set 9 0 else page)) 0
          (List.replicate 32 (b &&& 0xFFFFFFFF))).foldl (· ^^^ ·) 0) &&& 0xFFFF) := rfl

theorem pgChecksumBlock_pageC6 : pgChecksumBlock pageC6 0 = 1 := by
  rw [pgChecksumBlock_unfold, pageC6_length]
  rw [if_pos (by norm_num), pageC6_set89, pageC6_leWords]
  rw [show (0 &&& 0xFFFFFFFF : Nat) = 0 from rfl, pgSums_append, pgSums_zeros,
    List.length_replicate]
  decide

theorem specChecksumFNV_unfold (page : GoStr) (b : Nat) :
    specChecksumFNV page b =
      (((pgSums (leWords (if 9 < page.length then (page.set 8 0).set 9 0 else page)) 0
          (List.replicate 32 0)).foldl (· ^^^ ·) 0) ^^^ (b &&& 0xFFFFFFFF)) >>> 16 ^^^
      ((((pgSums (leWords (if 9 < page.length then (page.set 8 0).set 9 0 else page)) 0
          (List.replicate 32 0)).foldl (· ^^^ ·) 0) ^^^ (b &&& 0xFFFFFFFF)) &&& 0xFFFF) := rfl

theorem specChecksumFNV_pageC6 : specChecksumFNV pageC6 0 = 1 := by
  rw [specChecksumFNV_unfold, pageC6_length]
  rw [if_pos (by norm_num), pageC6_set89, pageC6_leWords]
  rw [pgSums_append, pgSums_zeros, List.length_replicate]
  decide

theorem isZeroPage_pageC6 : isZeroPage pageC6 = false := by
  rw [isZeroPage, pageC6, List.all_append]
  have h2 : ([1, 0] : GoStr).all (· == 0) = false := rfl
  rw [h2, Bool.and_false]

theorem verifyPage_pageC6 : VerifyPageChecksum pageC6 0 =
    { blockNumber := 0, storedChecksum := leU16 pageC6 8, lsn := leU64 pageC6 0,
      computedChecksum := computePageChecksum pageC6 0,
      valid := leU16 pageC6 8 = computePageChecksum pageC6 0 } := by
  rw [VerifyPageChecksum, pageC6_length, isZeroPage_pageC6]
  norm_num

/-- Claim C6: for every 8192-byte non-zero page and block number `B`, the
computed checksum that `VerifyPageChecksum` compares against the stored
u16 is claimed to equal the 32-way rolling FNV-1a (prime 0x01000193) over
the page with bytes 8–9 zeroed, lanes combined by XOR, `B` mixed in at
the end, folded 32→16 bits by hi ^ lo.  The code disagrees: on the
exhibited non-zero page at block 0, `VerifyPageChecksum` computes 2 (via
the rotate-and-XOR `computePageChecksum`), while the specified FNV-1a
algorithm — and the source's own unused `pgChecksumBlock` — computes 1. -/
theorem claim_C6_checksum_algorithm_mismatch :
    (VerifyPageChecksum pageC6 0).computedChecksum = computePageChecksum pageC6 0 ∧
    computePageChecksum pageC6 0 = 2 ∧
    specChecksumFNV pageC6 0 = 1 ∧
    pgChecksumBlock pageC6 0 = 1 ∧
    (VerifyPageChecksum pageC6 0).computedChecksum ≠ specChecksumFNV pageC6 0 := by
  refine ⟨by rw [verifyPage_pageC6], computePageChecksum_pageC6, specChecksumFNV_pageC6,
    pgChecksumBlock_pageC6, ?_⟩
  rw [verifyPage_pageC6, specChecksumFNV_pageC6, computePageChecksum_pageC6]
  norm_num

/-! ## Claim C1: DecodeType on short fixed-width input

`decodeScalar`'s int2 arm calls `i16(data, 0)` with no length check, so a
one-byte slice panics inside `binary.LittleEndian.Uint16` — the decoder
does not return a benign default. -/

/-- Claim C1: `DecodeType` is claimed to return a benign empty/default
value on every byte slice, never panicking; but on the one-byte slice
`[0x00]` with the int2 OID 21 the code reaches `u16(data, 0)` and panics
(modelled by `none`). -/
theorem claim_C1_decodeType_short_int2_panics : DecodeType [0] 21 = none := rfl

/-! ## Claim C8: the JSONB end-to-end scenario S5

The value JEntry of the S5 input declares length 12, but after 4-byte
alignment the numeric payload would need bytes 16–24 of a 20-byte input;
`decodeJEntry`'s bounds re-validation (spec §4.E) therefore yields null
for the value, so the object decodes as `{"a": null}`, not `{"a": 1}`. -/

/-- The 20-byte S5 input of claim C8. -/
def s5bytes : GoStr :=
  [0x01, 0x00, 0x00, 0x20, 0x01, 0x00, 0x00, 0x00, 0x0C, 0x00, 0x00, 0x10,
   0x61, 0x00, 0x00, 0x00, 0x05, 0x80, 0x01, 0x00]

/-- Claim C8, as stated, is false: on the S5 bytes `ParseJSONB` does not
return the object mapping `"a"` to the numeric 1 (in any of the numeric
shapes the decoder can produce). -/
theorem claim_C8_s5_counterexample :
    ParseJSONB s5bytes ≠ some (.vObj [(gs "a", .vNum 1)]) ∧
    ParseJSONB s5bytes ≠ some (.vObj [(gs "a", .vInt 1)]) := by
  have hval : ParseJSONB s5bytes = some (.vObj [(gs "a", .vNull)]) := rfl
  constructor <;> · rw [hval]; simp

/-- Claim C8, amended: on the S5 bytes `ParseJSONB` returns the one-key
object mapping `"a"` to null — the value JEntry's declared length 12
overruns the 20-byte input after alignment, and the bounds re-validation
nullifies the entry. -/
theorem claim_C8_s5_amended : ParseJSONB s5bytes = some (.vObj [(gs "a", .vNull)]) := rfl

/-! ## Claim C9: the JSONB container count limits -/

/-- Claim C9: whenever the JSONB container header's count field (low 28
bits) is 0 or greater than 10000, `ParseJSONB` returns nil — 10000 is a
hard upper limit on object keys / array elements. -/
theorem claim_C9_jsonb_count_limit (data : GoStr) (h4 : 4 ≤ data.length)
    (hc : leU32 data 0 &&& 0x0FFFFFFF = 0 ∨ 10000 < leU32 data 0 &&& 0x0FFFFFFF) :
    ParseJSONB data = some .vNull := by
  show ParseJSONBF (data.length + 1) data = some .vNull
  simp only [ParseJSONBF]
  rw [if_neg (by omega), if_pos (Or.inr hc)]

/-- Witness for claim C9 at the concrete header `[0,0,0,0]` (count 0). -/
theorem claim_C9_jsonb_count_limit_witness :
    4 ≤ ([0, 0, 0, 0] : GoStr).length ∧ ParseJSONB [0, 0, 0, 0] = some .vNull :=
  ⟨by decide, claim_C9_jsonb_count_limit [0, 0, 0, 0] (by decide) (Or.inl rfl)⟩

/-! ## Claim C10: the two UUID decoders

pkg's `decodeUUID` reads the first four groups big-endian; pgdump's
`decodeScalar` reads them little-endian.  Only the final six bytes agree.
The decoders coincide exactly on inputs invariant under the group-wise
byte swap. -/

theorem ParsePage_unfold (data : GoStr) : ParsePage data =
    if data.length < 8192 then some []
    else if !validHeader (parseHeader data) then some []
    else (parseItems data (parseHeader data)).bind (fun items =>
      some (items.filterMap (fun it =>
        if itemPasses (parseHeader data) it then tupleStage data it else none))) := rfl

theorem parseItemsAux_step (data : GoStr) (lower off fuel : Nat) (hoff : off < lower)
    (hf : 0 < fuel) :
    parseItemsAux data lower off fuel = (do
      let raw ← u32v data off
      let rest ← parseItemsAux data lower (off + 4) (fuel - 1)
      pure (({ offset := raw &&& 0x7FFF, flags := (raw >>> 15) &&& 0x03,
               length := (raw >>> 17) &&& 0x7FFF } : ItemID) :: rest)) := by
  cases fuel with
  | zero => omega
  | succ f =>
      show (if off < lower then _ else some []) = _
      rw [if_pos hoff]
      rfl

theorem parseItemsAux_stop (data : GoStr) (lower off fuel : Nat) (hoff : ¬ off < lower) :
    parseItemsAux data lower off fuel = some [] := by
  cases fuel with
  | zero => rfl
  | succ f =>
      show (if off < lower then _ else some []) = some []
      rw [if_neg hoff]

/-- A generic shape fact: filtering inside a `filterMap` equals filtering
first. -/
theorem filterMap_ite {α β : Type} (p : α → Bool) (f : α → Option β) :
    ∀ l : List α, (l.filterMap fun a => if p a then f a else none) =
      (l.filter p).filterMap f := by
  intro l
  induction l with
  | nil => rfl
  | cons a l ih =>
      by_cases h : p a <;> cases hfa : f a <;>
        simp [List.filterMap_cons, List.filter_cons, h, hfa, ih]

/-- The counterexample page for claim C2: an 8192-byte page declaring
page size 16384 (psv 0x4004), `lower = 28`, `upper = 9000`, and one line
pointer with offset 9000, normal flag, length 100 (raw 0x00C8A328). -/
def c2head : GoStr :=
  [0, 0, 0, 0, 0, 0, 0, 0, 0, 0, 0, 0, 0x1C, 0, 0x28, 0x23, 0, 0, 0x04, 0x40,
   0, 0, 0, 0, 0x28, 0xA3, 0xC8, 0x00]

def pageC2 : GoStr := c2head ++ List.replicate 8164 0

theorem pageC2_length : pageC2.length = 8192 := by
  show (c2head ++ List.replicate 8164 0).length = 8192
  rw [List.length_append, List.length_replicate]
  rfl

theorem pageC2_getD (i : Nat) : pageC2.getD i 0 = c2head.getD i 0 :=
  getD_rep_back c2head 8164 i

theorem parseHeader_pageC2 : parseHeader pageC2 =
    { lower := 28, upper := 9000, pageSize := 16384, version := 4 } := by
  show ({ lower := leU16 pageC2 12, upper := leU16 pageC2 14,
          pageSize := leU16 pageC2 18 &&& 0xFF00,
          version := leU16 pageC2 18 &&& 0x00FF } : PageHeader) = _
  simp only [leU16, pageC2_getD]
  decide

theorem u32v_pageC2_24 : u32v pageC2 24 = some 13148968 := by
  rw [u32v, if_pos (by rw [pageC2_length]; norm_num)]
  simp only [leU32, pageC2_getD]
  decide

theorem parseItems_pageC2 :
    parseItems pageC2 { lower := 28, upper := 9000, pageSize := 16384, version := 4 } =
      some [{ offset := 9000, flags := 1, length := 100 }] := by
  show parseItemsAux pageC2 28 24 28 = _
  rw [parseItemsAux_step _ _ _ _ (by norm_num) (by norm_num), u32v_pageC2_24,
    parseItemsAux_stop _ _ _ _ (by norm_num)]
  rfl

theorem parsePage_pageC2 : ParsePage pageC2 = some [] := by
  rw [ParsePage_unfold, pageC2_length, parseHeader_pageC2]
  rw [if_neg (by norm_num), if_neg (by decide), parseItems_pageC2]
  rfl

/-- Claim C2, as stated, is false on the code: `pageC2` passes header
validation and its single line pointer satisfies the spec's filter
(`flags = normal`, nonzero length, `upper ≤ offset`,
`offset + length ≤ declared pagesize`), yet `ParsePage` passes nothing to
the tuple parser, because the code bounds `offset + length` by the
constant 8192. -/
theorem claim_C2_counterexample :
    validHeader (parseHeader pageC2) = true ∧
    parseItems pageC2 (parseHeader pageC2) =
      some [{ offset := 9000, flags := 1, length := 100 }] ∧
    specItemPasses (parseHeader pageC2) { offset := 9000, flags := 1, length := 100 } = true ∧
    itemPasses (parseHeader pageC2) { offset := 9000, flags := 1, length := 100 } = false ∧
    ParsePage pageC2 = some [] := by
  refine ⟨?_, ?_, ?_, ?_, parsePage_pageC2⟩
  · rw [parseHeader_pageC2]; decide
  · rw [parseHeader_pageC2]; exact parseItems_pageC2
  · rw [parseHeader_pageC2]; decide
  · rw [parseHeader_pageC2]; decide

/-- Claim C2, amended: when the header validates and the line-pointer
scan completes, `ParsePage` passes to the tuple parser exactly the
entries with `flags = normal`, nonzero length, `upper ≤ offset`, and
`offset + length ≤ 8192` (the compiled-in `PageSize` constant, not the
declared page size); a page failing validation produces no tuples. -/
theorem claim_C2_amended (data : GoStr) (items : List ItemID)
    (hlen : 8192 ≤ data.length)
    (hvalid : validHeader (parseHeader data) = true)
    (hitems : parseItems data (parseHeader data) = some items) :
    (ParsePage data =
      some ((items.filter (itemPasses (parseHeader data))).filterMap (tupleStage data))) ∧
    (∀ it : ItemID, itemPasses (parseHeader data) it = true ↔
      (it.flags = 1 ∧ 0 < it.length ∧ (parseHeader data).upper ≤ it.offset ∧
        it.offset + it.length ≤ 8192)) ∧
    (∀ d : GoStr, validHeader (parseHeader d) = false → ParsePage d = some []) := by
  refine ⟨?_, ?_, ?_⟩
  · rw [ParsePage_unfold, if_neg (by omega), hvalid]
    rw [show (!true) = false from rfl, if_neg (by simp), hitems]
    show some (items.filterMap fun it =>
      if itemPasses (parseHeader data) it = true then tupleStage data it else none) = _
    rw [filterMap_ite]
  · intro it
    simp [itemPasses]
    omega
  · intro d hd
    rw [ParsePage_unfold]
    by_cases hl : d.length < 8192
    · rw [if_pos hl]
    · rw [if_neg hl, hd]
      rfl

/-! ## Claim C4: visible-only extraction is exactly the MVCC filter -/

theorem readTuplesPages_succ (data : GoStr) (vis : Bool) (k : Nat) :
    readTuplesPages data vis (k + 1) = (do
      let prev ← readTuplesPages data vis k
      let es ← ParsePage ((data.drop (8192 * k)).take 8192)
      pure (prev ++ es.filterMap (fun e =>
        if !vis || e.tuple.IsVisible then some { e with pageOffset := 8192 * k }
        else none))) := rfl

/-- Filtering the all-tuples page list by visibility gives the
visible-only page list (the `pageOffset` update does not affect the
predicate). -/
theorem pageFilter (es : List TupleEntry) (off : Nat) :
    (es.filterMap (fun e => some { e with pageOffset := off })).filter
      (fun e => e.tuple.IsVisible) =
    es.filterMap (fun e =>
      if e.tuple.IsVisible then some { e with pageOffset := off } else none) := by
  induction es with
  | nil => rfl
  | cons e es ih =>
      by_cases hv : e.tuple.IsVisible <;>
        simp [List.filterMap_cons, List.filter_cons, hv, ih]

theorem readTuplesPages_filter (data : GoStr) : ∀ (n : Nat) (l : List TupleEntry),
    readTuplesPages data false n = some l →
    readTuplesPages data true n = some (l.filter (fun e => e.tuple.IsVisible)) := by
  intro n
  induction n with
  | zero =>
      intro l h
      have h' : ([] : List TupleEntry) = l := Option.some.inj h
      rw [← h']
      rfl
  | succ k ih =>
      intro l h
      rw [readTuplesPages_succ] at h ⊢
      cases hprev : readTuplesPages data false k with
      | none => rw [hprev] at h; exact Option.noConfusion h
      | some prev =>
          rw [hprev] at h
          cases hpp : ParsePage ((data.drop (8192 * k)).take 8192) with
          | none => rw [hpp] at h; exact Option.noConfusion h
          | some es =>
              rw [hpp] at h
              have hl : prev ++ es.filterMap (fun e => some { e with pageOffset := 8192 * k })
                  = l := Option.some.inj h
              rw [ih prev hprev]
              show some ((prev.filter (fun e => e.tuple.IsVisible)) ++ es.filterMap (fun e =>
                if e.tuple.IsVisible then some { e with pageOffset := 8192 * k }
                else none)) = some (l.filter (fun e => e.tuple.IsVisible))
              rw [← hl, List.filter_append, pageFilter]

/-- Claim C4: extraction with `visibleOnly = true` returns exactly the
parsed tuples satisfying `xmin_committed ∧ (xmax_invalid ∨
¬xmax_committed)` — the infomask bits 0x0100, 0x0800 and 0x0400 — and
tuples failing the predicate are kept only by the `visibleOnly = false`
(deleted-rows) mode. -/
theorem claim_C4_visibility_filter (data : GoStr) (l : List TupleEntry)
    (h : ReadTuples data false = some l) :
    ReadTuples data true = some (l.filter (fun e => e.tuple.IsVisible)) ∧
    (∀ (d : GoStr) (t : HeapTupleData), ParseHeapTuple d = some t →
      (t.IsVisible = true ↔ (t.header.infomask &&& 0x0100 ≠ 0 ∧
        (t.header.infomask &&& 0x0800 ≠ 0 ∨ t.header.infomask &&& 0x0400 = 0)))) := by
  constructor
  · exact readTuplesPages_filter data (data.length / 8192) l h
  · intro d t ht
    simp only [ParseHeapTuple] at ht
    split at ht
    · exact Option.noConfusion ht
    · split at ht
      · exact Option.noConfusion ht
      · have h' := Option.some.inj ht
        rw [← h']
        simp [HeapTupleData.IsVisible]

/-- Witness for claim C4 on the empty heap file. -/
theorem claim_C4_visibility_filter_witness :
    ReadTuples ([] : GoStr) false = some [] ∧
    ReadTuples ([] : GoStr) true = some (([] : List TupleEntry).filter
      (fun e => e.tuple.IsVisible)) :=
  ⟨rfl, (claim_C4_visibility_filter [] [] rfl).1⟩

/-! ## Claim C5: pg_attribute version auto-detection

The detection logic is as claimed when the row scan completes, but a
hostile page that passes header validation while declaring a page size
beyond the 8192 bytes actually present makes the line-pointer scan read
out of range: `ParsePGAttribute` panics instead of silently falling back
to the v15 layout. -/

/-- The failing input for claim C5: an 8192-byte page declaring page size
16384 (psv 0x4004) with `lower = upper = 8200`, so the line-pointer walk
runs past byte 8192. -/
def c5head : GoStr :=
  [0, 0, 0, 0, 0, 0, 0, 0, 0, 0, 0, 0, 0x08, 0x20, 0x08, 0x20, 0, 0, 0x04, 0x40]

def pageC5 : GoStr := c5head ++ List.replicate 8172 0

theorem pageC5_length : pageC5.length = 8192 := by
  show (c5head ++ List.replicate 8172 0).length = 8192
  rw [List.length_append, List.length_replicate]
  rfl

theorem pageC5_getD (i : Nat) : pageC5.getD i 0 = c5head.getD i 0 :=
  getD_rep_back c5head 8172 i

theorem parseHeader_pageC5 : parseHeader pageC5 =
    { lower := 8200, upper := 8200, pageSize := 16384, version := 4 } := by
  show ({ lower := leU16 pageC5 12, upper := leU16 pageC5 14,
          pageSize := leU16 pageC5 18 &&& 0xFF00,
          version := leU16 pageC5 18 &&& 0x00FF } : PageHeader) = _
  simp only [leU16, pageC5_getD]
  decide

theorem u32v_pageC5_zero (off : Nat) (h20 : 20 ≤ off) (h : off + 4 ≤ 8192) :
    u32v pageC5 off = some 0 := by
  rw [u32v, if_pos (by rw [pageC5_length]; omega)]
  have hd : ∀ j, 20 ≤ j → pageC5.getD j 0 = 0 := by
    intro j hj
    rw [pageC5_getD]
    exact List.getD_eq_default _ _ (by rw [show c5head.length = 20 from rfl]; omega)
  rw [leU32, hd off (by omega), hd (off + 1) (by omega), hd (off + 2) (by omega),
    hd (off + 3) (by omega)]

theorem parseItemsAux_pageC5_none : ∀ (k fuel : Nat), k < fuel → 4 * k ≤ 8168 →
    parseItemsAux pageC5 8200 (8192 - 4 * k) fuel = none := by
  intro k
  induction k with
  | zero =>
      intro fuel hf _
      cases fuel with
      | zero => omega
      | succ f =>
          rw [show 8192 - 4 * 0 = 8192 from by norm_num]
          rw [parseItemsAux_step pageC5 8200 8192 (f + 1) (by norm_num) (by omega)]
          have hnone : u32v pageC5 8192 = none := by
            rw [u32v, if_neg (by rw [pageC5_length]; omega)]
          rw [hnone]
          rfl
  | succ k ih =>
      intro fuel hf hk
      cases fuel with
      | zero => omega
      | succ f =>
          have hoff : 8192 - 4 * (k + 1) < 8200 := by omega
          rw [parseItemsAux_step pageC5 8200 _ (f + 1) hoff (by omega)]
          rw [u32v_pageC5_zero _ (by omega) (by omega)]
          have harg : 8192 - 4 * (k + 1) + 4 = 8192 - 4 * k := by omega
          rw [show (f + 1) - 1 = f from rfl, harg, ih f (by omega) (by omega)]
          rfl

theorem parseItems_pageC5 :
    parseItems pageC5 { lower := 8200, upper := 8200, pageSize := 16384, version := 4 } =
      none := by
  show parseItemsAux pageC5 8200 24 8200 = none
  rw [show (24 : Nat) = 8192 - 4 * 2042 from by norm_num]
  exact parseItemsAux_pageC5_none 2042 8200 (by norm_num) (by norm_num)

theorem parsePage_pageC5 : ParsePage pageC5 = none := by
  rw [ParsePage_unfold, pageC5_length, parseHeader_pageC5]
  rw [if_neg (by norm_num), if_neg (by decide), parseItems_pageC5]
  rfl

theorem readTuples_pageC5 : ReadTuples pageC5 true = none := by
  show readTuplesPages pageC5 true (pageC5.length / 8192) = none
  rw [pageC5_length, show (8192 : Nat) / 8192 = 1 from by norm_num,
    readTuplesPages_succ]
  have hchunk : (pageC5.drop (8192 * 0)).take 8192 = pageC5 := by
    rw [Nat.mul_zero, List.drop_zero]
    exact List.take_of_length_le (le_of_eq pageC5_length)
  rw [hchunk, parsePage_pageC5]
  rfl

theorem readRows_pageC5 : ReadRows pageC5 schemaPGAttrV16 true = none := by
  show (ReadTuples pageC5 true).bind (readRowsLoop schemaPGAttrV16) = none
  rw [readTuples_pageC5]
  rfl

/-- Claim C5 (code_bug evidence): `pageC5` passes header validation, yet
with no version hint the auto-detection aborts (Go: an index
out-of-range panic in the line-pointer scan) instead of accepting v16 or
silently falling back to v15 — `detectAttrSchema` and `ParsePGAttribute`
produce no result at all on it. -/
theorem detectAttrSchema_unfold (data : GoStr) (v : Int) : detectAttrSchema data v =
    if (16 : Int) ≤ v then some schemaPGAttrV16
    else if (12 : Int) ≤ v then some schemaPGAttrV15
    else (ReadRows data schemaPGAttrV16 true).bind (fun rows =>
      if 5 ≤ rows.length ∧ attnumSeqCheck rows then some schemaPGAttrV16
      else some schemaPGAttrV15) := rfl

theorem ParsePGAttribute_unfold (data : GoStr) (v : Int) : ParsePGAttribute data v =
    (detectAttrSchema data v).bind (fun schema =>
      (ReadRows data schema true).bind (fun rows =>
        some ((pgAttributeLoop rows []).map (fun kv => (kv.1, sortAttrs kv.2))))) := rfl

theorem claim_C5_autodetect_panics :
    validHeader (parseHeader pageC5) = true ∧
    detectAttrSchema pageC5 0 = none ∧
    ParsePGAttribute pageC5 0 = none := by
  have hdet : detectAttrSchema pageC5 0 = none := by
    rw [detectAttrSchema_unfold, if_neg (by norm_num), if_neg (by norm_num),
      readRows_pageC5]
    rfl
  refine ⟨by rw [parseHeader_pageC5]; decide, hdet, ?_⟩
  rw [ParsePGAttribute_unfold, hdet]
  rfl

/-- The auto-detection dichotomy, for completeness: when the row scan
completes with no version hint, the result is the v16 schema exactly when
the first five rows carry attnums 1..5, and the v15 schema otherwise. -/
theorem detectAttrSchema_dichotomy (data : GoStr) (rows : List Row)
    (h : ReadRows data schemaPGAttrV16 true = some rows) :
    detectAttrSchema data 0 =
      some (if 5 ≤ rows.length ∧ attnumSeqCheck rows then schemaPGAttrV16
        else schemaPGAttrV15) := by
  rw [detectAttrSchema_unfold, if_neg (by norm_num), if_neg (by norm_num), h]
  show (if 5 ≤ rows.length ∧ attnumSeqCheck rows then some schemaPGAttrV16
    else some schemaPGAttrV15) = _
  by_cases hc : 5 ≤ rows.length ∧ attnumSeqCheck rows
  · rw [if_pos hc, if_pos hc]
  · rw [if_neg hc, if_neg hc]

/-! ## Claim C3: the dump's failure policy -/

/-- The schema-only table entry `dumpTable` builds before attempting to
read the heap. -/
def schemaOnlyTable (fn : Nat) (info : TableInfo) (attrs : List AttrInfo) : TableDump :=
  { oid := info.oid, name := info.name, filenode := fn, kind := info.kind,
    columns := attrs.map (fun a =>
      { name := a.name, type := typeNameGo a.typid, typid := a.typid }),
    rows := [], rowCount := 0 }

/-- An environment where only `base/5/1259` (pg_class of database 5) is
readable — in particular reading `base/5/1249` (pg_attribute) fails. -/
def envC3 : Env := fun p => if p = "base/5/1259" then .ok [0] else .error "unreadable"

/-- Claim C3, counterexample to "a pg_attribute read failure skips the
offending database": under `envC3` the pg_attribute read of database 5
fails, yet the database loop still emits a dump for it (with no
attributes), instead of skipping it. -/
theorem claim_C3_attr_failure_counterexample :
    envC3 "base/5/1249" = .error "unreadable" ∧
    dbLoop envC3 (withDefaults none) [{ oid := 5, name := gs "db" }] [] =
      some [{ oid := 5, name := gs "db", tables := [] }] :=
  ⟨rfl, rfl⟩

/-- Claim C3, amended: `DumpDataDir` returns an error exactly when
`global/1262` cannot be read; a database whose pg_class read fails (or
is empty) is skipped with the loop continuing over the rest; a failed
pg_attribute (1249) read does NOT skip its database — the error is
ignored and the database is dumped as if pg_attribute were empty; a
table whose heap read fails is kept schema-only and the dump
continues. -/
theorem claim_C3_dump_failure_policy (env : Env) (opts : Option Options) :
    (∀ e, DumpDataDir env opts = some (.error e) ↔ env "global/1262" = .error e) ∧
    (∀ (o : Options) (db : DatabaseInfo) (rest : List DatabaseInfo)
        (acc : List DatabaseDump),
      exceptGetD (env (("base/" ++ toString db.oid) ++ "/1259")) = [] →
      dbLoop env o (db :: rest) acc = dbLoop env o rest acc) ∧
    (∀ (o : Options) (db : DatabaseInfo) (rest : List DatabaseInfo)
        (acc : List DatabaseDump) (e : String) (dump : DatabaseDump),
      strPfx (gs "template") db.name = false →
      (o.databaseFilter = [] ∨ db.name = o.databaseFilter) →
      env (("base/" ++ toString db.oid) ++ "/1249") = .error e →
      exceptGetD (env (("base/" ++ toString db.oid) ++ "/1259")) ≠ [] →
      DumpDatabaseFromFiles (exceptGetD (env (("base/" ++ toString db.oid) ++ "/1259")))
          [] (some fun fn => env (("base/" ++ toString db.oid) ++ "/" ++ toString fn))
          (some o) = some dump →
      dbLoop env o (db :: rest) acc =
        dbLoop env o rest (acc ++ [{ dump with oid := db.oid, name := db.name }])) ∧
    (∀ (fn : Nat) (info : TableInfo) (attrs : List AttrInfo) (reader : FileReader)
        (o : Options) (e : String),
      reader fn = .error e →
      dumpTable fn info attrs (some reader) o = some (schemaOnlyTable fn info attrs)) := by
  refine ⟨?_, ?_, ?_, ?_⟩
  · intro e
    cases henv : env "global/1262" with
    | error e' => simp [DumpDataDir, henv]
    | ok bs =>
        cases hp : ParsePGDatabase bs with
        | none => simp [DumpDataDir, henv, hp]
        | some dbs =>
            cases hl : dbLoop env (withDefaults opts) dbs [] with
            | none => simp [DumpDataDir, henv, hp, hl]
            | some l => simp [DumpDataDir, henv, hp, hl]
  · intro o db rest acc hcls
    simp only [dbLoop]
    by_cases h1 : strPfx (gs "template") db.name = true
    · rw [if_pos h1]
    · rw [if_neg h1]
      by_cases h2 : o.databaseFilter ≠ [] ∧ db.name ≠ o.databaseFilter
      · rw [if_pos h2]
      · rw [if_neg h2, if_pos (by rw [hcls]; rfl)]
  · intro o db rest acc e dump hpfx hfil hattr hcls hdump
    simp only [dbLoop]
    rw [if_neg (by simp [hpfx]), if_neg (by rcases hfil with h | h <;> simp [h]),
      if_neg (by simpa [List.length_eq_zero] using hcls), hattr]
    show (do
      let dump ← DumpDatabaseFromFiles
        (exceptGetD (env (("base/" ++ toString db.oid) ++ "/1259")))
        [] (some fun fn => env (("base/" ++ toString db.oid) ++ "/" ++ toString fn))
        (some o)
      dbLoop env o rest (acc ++ [{ dump with oid := db.oid, name := db.name }])) = _
    rw [hdump]
    rfl
  · intro fn info attrs reader o e hr
    simp only [dumpTable, schemaOnlyTable]
    by_cases hL : o.listOnly = true
    · rw [if_pos hL]
    · rw [if_neg hL, hr]

/-- Witness for claim C3: a reader that always fails makes the dump
return exactly that error; under `envC3` the unreadable pg_attribute is
ignored and database 5 is still dumped; a failing table read yields the
schema-only entry. -/
theorem claim_C3_dump_failure_policy_witness :
    DumpDataDir (fun _ => .error "x") none = some (.error "x") ∧
    dbLoop envC3 (withDefaults none) [{ oid := 5, name := gs "db" }] [] =
      dbLoop envC3 (withDefaults none) []
        ([] ++ [{ ({ oid := 0, name := [], tables := [] } : DatabaseDump) with
          oid := 5, name := gs "db" }]) ∧
    dumpTable 1 { oid := 1, filenode := 1, name := [], kind := [] } []
      (some (fun _ => .error "x")) {} =
      some (schemaOnlyTable 1 { oid := 1, filenode := 1, name := [], kind := [] } []) :=
  ⟨((claim_C3_dump_failure_policy (fun _ => .error "x") none).1 "x").mpr rfl,
   (claim_C3_dump_failure_policy envC3 none).2.2.1 (withDefaults none)
     { oid := 5, name := gs "db" } [] [] "unreadable"
     { oid := 0, name := [], tables := [] }
     (by decide) (Or.inl rfl) rfl (by decide) rfl,
   (claim_C3_dump_failure_policy (fun _ => .error "x") none).2.2.2 1
     { oid := 1, filenode := 1, name := [], kind := [] } [] (fun _ => .error "x") {} "x" rfl⟩

/-! ## Claim C7: the numeric value formula -/

/-- The multiply-or-divide branch of `computeNumeric` is exact
multiplication by an integer power of 10000. -/
lemma mulPow_int (x : Rat) (e : Int) :
    (if 0 ≤ e then x * (10000 : Rat) ^ e.toNat else x / (10000 : Rat) ^ (-e).toNat) =
      x * (10000 : Rat) ^ e := by
  split
  next h =>
    rw [← zpow_natCast (10000 : Rat) e.toNat, Int.toNat_of_nonneg h]
  next h =>
    rw [div_eq_mul_inv, ← zpow_natCast (10000 : Rat) (-e).toNat,
        Int.toNat_of_nonneg (by omega), ← zpow_neg, neg_neg]

/-- The Horner accumulation followed by the final power shift expands to
the positional sum `Σ dᵢ · 10000^(w - i)`. -/
lemma horner_zpow (l : List Int) (r : Rat) (w : Int) :
    (l.foldl (fun (r : Rat) (d : Int) => r * 10000 + (d : Rat)) r) *
        (10000 : Rat) ^ (w - l.length + 1) =
      r * (10000 : Rat) ^ (w + 1) +
        ∑ i in Finset.range l.length, (l.getD i 0 : Rat) * (10000 : Rat) ^ (w - i) := by
  have hne : (10000 : Rat) ≠ 0 := by norm_num
  induction l generalizing r w with
  | nil => simp
  | cons d l ih =>
      rw [List.foldl_cons]
      have harg : w - ((d :: l).length : Int) + 1 = (w - 1) - (l.length : Int) + 1 := by
        push_cast [List.length_cons]; ring
      rw [harg, ih (r * 10000 + (d : Rat)) (w - 1), List.length_cons,
          Finset.sum_range_succ']
      have e1 : w - 1 + 1 = w := by ring
      have e3 : ∀ i : ℕ, w - 1 - (i : Int) = w - ((i : Int) + 1) := fun i => by ring
      rw [e1]
      simp only [e3, List.getD_cons_succ, List.getD_cons_zero, Nat.cast_add,
        Nat.cast_one, Nat.cast_zero, sub_zero]
      rw [zpow_add_one₀ hne]
      ring

/-! ### A binary64-faithful model of the `computeNumeric` accumulation

The exact-rational `computeNumeric` above idealises the Go `float64`
arithmetic; the claim's truth depends on that rounding, so the theorems
below use a round-to-nearest-even model of the IEEE-754 binary64
operations instead. -/

/-- Fuel-based `⌊log₂ n⌋` (`Nat.log2` is not structurally recursive, so
it cannot be evaluated by the kernel; the fuel version can). -/
def log2F : Nat → Nat → Nat
  | 0, _ => 0
  | fuel + 1, n => if n < 2 then 0 else log2F fuel (n / 2) + 1

/-- `⌊log₂ x⌋` of a positive rational (callers never pass `x ≤ 0`; the
fuel 1100 covers the whole binary64 exponent range). -/
def ilog2 (x : Rat) : Int :=
  if 1 ≤ x then (log2F 1100 (⌊x⌋).toNat : Int)
  else
    let m := log2F 1100 (⌊1 / x⌋).toNat
    if x * (2 : Rat) ^ m = 1 then -(m : Int) else -(m : Int) - 1

/-- Round a rational to an integer, nearest, ties to even. -/
def roundHalfEven (y : Rat) : Int :=
  let f := ⌊y⌋
  if y - (f : Rat) < 1 / 2 then f
  else if 1 / 2 < y - (f : Rat) then f + 1
  else if f % 2 = 0 then f else f + 1

/-- IEEE-754 binary64 rounding of a positive rational: scale by a power
of two into `[2^52, 2^53)`, round the 53-bit significand half-to-even,
scale back. The exponent is unbounded (no overflow or subnormal
handling; every value in the theorems below stays far inside the normal
binary64 range). -/
def fpRoundPos (x : Rat) : Rat :=
  (roundHalfEven (x * (2 : Rat) ^ (52 - ilog2 x)) : Rat) * (2 : Rat) ^ (-(52 - ilog2 x))

/-- Binary64 round-to-nearest-even on exact rationals. -/
def fpRound (x : Rat) : Rat :=
  if x = 0 then 0 else if x < 0 then -fpRoundPos (-x) else fpRoundPos x

/-- The Horner loop of `computeNumeric` with each `float64` operation
rounded: `result = result*10000 + float64(d)` is one rounded
multiplication and one rounded addition (the `int → float64` conversion
of a base-10000 digit is exact). -/
def hornerFp (digits : List Int) : Rat :=
  digits.foldl (fun (r : Rat) (d : Int) => fpRound (fpRound (r * 10000) + (d : Rat))) 0

/-- `computeNumeric(digits, weight, sign)` at `weight = len(digits) - 1`,
where the scaling exponent `exp = weight - len + 1` is zero:
`math.Pow(10000, 0) = 1` by Go's documented special case, and the final
multiplications by `1` and by `float64(±1)` are exact in binary64, so
the result is exactly the rounded Horner accumulation. (For nonzero
`exp` the result also depends on `math.Pow`, whose rounding Go does not
specify.) -/
def computeNumericFp0 (digits : List Int) (sign : Int) : Rat :=
  if digits.length = 0 then 0 else (sign : Rat) * hornerFp digits

/-- The exact value of the Horner accumulation over naturals. -/
def hornerNatVal : Nat → List Int → Nat
  | m, [] => m
  | m, d :: l => hornerNatVal (m * 10000 + d.toNat) l

/-- Every digit is nonnegative and every running Horner value stays
below `2^53` (so each binary64 rounding is exact). -/
def hornerOK : Nat → List Int → Bool
  | _, [] => true
  | m, d :: l =>
      decide (0 ≤ d) && decide (m * 10000 + d.toNat < 2 ^ 53) &&
        hornerOK (m * 10000 + d.toNat) l

lemma log2F_le (fuel : Nat) : ∀ n k : Nat, n < 2 ^ (k + 1) → log2F fuel n ≤ k := by
  induction fuel with
  | zero => intro n k _; exact Nat.zero_le k
  | succ fuel ih =>
      intro n k h
      show (if n < 2 then 0 else log2F fuel (n / 2) + 1) ≤ k
      by_cases h2 : n < 2
      · rw [if_pos h2]; exact Nat.zero_le k
      · rw [if_neg h2]
        cases k with
        | zero => omega
        | succ k =>
            have hd : n / 2 < 2 ^ (k + 1) := by
              have hp : 2 ^ (k + 1 + 1) = 2 ^ (k + 1) * 2 := by rw [pow_succ]
              omega
            have := ih (n / 2) k hd
            omega

lemma roundHalfEven_intCast (m : Int) : roundHalfEven (m : Rat) = m := by
  simp only [roundHalfEven, Int.floor_intCast]
  rw [sub_self, if_pos (by norm_num)]

lemma ilog2_natCast (n : Nat) (h : 0 < n) : ilog2 (n : Rat) = (log2F 1100 n : Int) := by
  rw [ilog2, if_pos (by exact_mod_cast h), Int.floor_natCast, Int.toNat_natCast]

/-- Rounding is the identity on naturals below `2^53` (they are exactly
representable in binary64). -/
lemma fpRound_natCast (n : Nat) (h : n < 2 ^ 53) : fpRound (n : Rat) = n := by
  rcases Nat.eq_zero_or_pos n with h0 | h0
  · subst h0; simp [fpRound]
  · have hne : ((n : Rat)) ≠ 0 := Nat.cast_ne_zero.mpr (by omega)
    have hnn : ¬ ((n : Rat) < 0) := not_lt.mpr (by positivity)
    rw [fpRound, if_neg hne, if_neg hnn, fpRoundPos, ilog2_natCast n h0]
    have hle : log2F 1100 n ≤ 52 := log2F_le 1100 n 52 h
    obtain ⟨k, hk⟩ : ∃ k : Nat, (52 : Int) - (log2F 1100 n : Int) = (k : Int) :=
      ⟨((52 : Int) - (log2F 1100 n : Int)).toNat, (Int.toNat_of_nonneg (by omega)).symm⟩
    rw [hk, zpow_natCast, zpow_neg, zpow_natCast]
    have harg : (n : Rat) * (2 : Rat) ^ k = (((n * 2 ^ k : Nat) : Int) : Rat) := by
      push_cast
      ring
    rw [harg, roundHalfEven_intCast]
    have h2 : ((2 : Rat)) ^ k ≠ 0 := by positivity
    field_simp

/-- Under the `hornerOK` bounds the rounded Horner loop computes the
exact natural value. -/
lemma hornerFp_exact (l : List Int) : ∀ m : Nat, hornerOK m l = true →
    l.foldl (fun (r : Rat) (d : Int) => fpRound (fpRound (r * 10000) + (d : Rat))) (m : Rat) =
      ((hornerNatVal m l : Nat) : Rat) := by
  induction l with
  | nil => intro m _; rfl
  | cons d l ih =>
      intro m hok
      simp only [hornerOK, Bool.and_eq_true, decide_eq_true_eq] at hok
      obtain ⟨⟨hd0, hlt⟩, hrest⟩ := hok
      rw [List.foldl_cons]
      have hm1 : ((m : Rat) * 10000) = ((m * 10000 : Nat) : Rat) := by push_cast; ring
      have hb1 : m * 10000 < 2 ^ 53 := by omega
      rw [hm1, fpRound_natCast _ hb1]
      have hdq : ((d.toNat : Nat) : Rat) = ((d : Int) : Rat) := by
        exact_mod_cast congrArg (fun z : Int => (z : Rat)) (Int.toNat_of_nonneg hd0)
      have hm2 : ((m * 10000 : Nat) : Rat) + (d : Rat) =
          ((m * 10000 + d.toNat : Nat) : Rat) := by
        push_cast
        rw [hdq]
      rw [hm2, fpRound_natCast _ hlt]
      exact ih _ hrest

/-- Under the same bounds the exact-rational Horner loop computes the
same natural value. -/
lemma hornerNat_exact (l : List Int) : ∀ m : Nat, hornerOK m l = true →
    l.foldl (fun (r : Rat) (d : Int) => r * 10000 + (d : Rat)) (m : Rat) =
      ((hornerNatVal m l : Nat) : Rat) := by
  induction l with
  | nil => intro m _; rfl
  | cons d l ih =>
      intro m hok
      simp only [hornerOK, Bool.and_eq_true, decide_eq_true_eq] at hok
      obtain ⟨⟨hd0, _⟩, hrest⟩ := hok
      rw [List.foldl_cons]
      have hdq : ((d.toNat : Nat) : Rat) = ((d : Int) : Rat) := by
        exact_mod_cast congrArg (fun z : Int => (z : Rat)) (Int.toNat_of_nonneg hd0)
      have hm2 : (m : Rat) * 10000 + (d : Rat) =
          ((m * 10000 + d.toNat : Nat) : Rat) := by
        push_cast
        rw [hdq]
      rw [hm2]
      exact ih _ hrest

/-- `hornerFp` with the loop's actual zero start. -/
lemma hornerFp_zero (l : List Int) (h : hornerOK 0 l = true) :
    hornerFp l = ((hornerNatVal 0 l : Nat) : Rat) := by
  have h2 := hornerFp_exact l 0 h
  simp only [Nat.cast_zero] at h2
  exact h2

/-- The exact Horner loop with the zero start. -/
lemma hornerNat_zero (l : List Int) (h : hornerOK 0 l = true) :
    l.foldl (fun (r : Rat) (d : Int) => r * 10000 + (d : Rat)) 0 =
      ((hornerNatVal 0 l : Nat) : Rat) := by
  have h2 := hornerNat_exact l 0 h
  simp only [Nat.cast_zero] at h2
  exact h2

/-- `10^16 = 2 · (5·10^15)` is exactly representable in binary64:
rounding leaves it unchanged. -/
lemma fpRound_1e16 :
    fpRound ((10000000000000000 : Nat) : Rat) = ((10000000000000000 : Nat) : Rat) := by
  have hne : (((10000000000000000 : Nat) : Rat)) ≠ 0 := Nat.cast_ne_zero.mpr (by norm_num)
  have hnn : ¬ (((10000000000000000 : Nat) : Rat) < 0) := not_lt.mpr (by positivity)
  rw [fpRound, if_neg hne, if_neg hnn, fpRoundPos, ilog2_natCast _ (by norm_num)]
  rw [show log2F 1100 10000000000000000 = 53 from by decide]
  rw [show (52 : Int) - ((53 : Nat) : Int) = -1 from by norm_num]
  rw [show ((10000000000000000 : Nat) : Rat) * (2 : Rat) ^ (-1 : Int) =
      (((5000000000000000 : Int)) : Rat) from by
    rw [zpow_neg, zpow_one]; push_cast; norm_num]
  rw [roundHalfEven_intCast, neg_neg, zpow_one]
  push_cast
  norm_num

/-- `10^16 + 1` lies exactly halfway between the representable `10^16`
and `10^16 + 2`; ties-to-even rounds it down to `10^16`. -/
lemma fpRound_1e16p1 :
    fpRound ((10000000000000001 : Nat) : Rat) = ((10000000000000000 : Nat) : Rat) := by
  have hne : (((10000000000000001 : Nat) : Rat)) ≠ 0 := Nat.cast_ne_zero.mpr (by norm_num)
  have hnn : ¬ (((10000000000000001 : Nat) : Rat) < 0) := not_lt.mpr (by positivity)
  rw [fpRound, if_neg hne, if_neg hnn, fpRoundPos, ilog2_natCast _ (by norm_num)]
  rw [show log2F 1100 10000000000000001 = 53 from by decide]
  rw [show (52 : Int) - ((53 : Nat) : Int) = -1 from by norm_num]
  have hy : ((10000000000000001 : Nat) : Rat) * (2 : Rat) ^ (-1 : Int) =
      (10000000000000001 : Rat) / 2 := by
    rw [zpow_neg, zpow_one]
    push_cast
    ring
  rw [hy, roundHalfEven]
  have hf : ⌊(10000000000000001 : Rat) / 2⌋ = 5000000000000000 := by
    rw [Int.floor_eq_iff]
    push_cast
    norm_num
  rw [hf]
  rw [if_neg (by push_cast; norm_num), if_neg (by push_cast; norm_num),
    if_pos (by decide)]
  rw [neg_neg, zpow_one]
  push_cast
  norm_num

/-- Claim C7, counterexample to the exact-equality claim: decoding the
digit vector `[1, 0, 0, 0, 1]` with `weight = 4` and `sign = 1` (zero
scaling exponent, so only IEEE-specified operations run) accumulates
`10^16 + 1`, which binary64 rounds half-to-even down to `10^16`; the
claimed exact formula gives `10^16 + 1`. -/
theorem claim_C7_float_counterexample :
    computeNumericFp0 [1, 0, 0, 0, 1] 1 = 10000000000000000 ∧
    (1 : Rat) * (∑ i in Finset.range ([1, 0, 0, 0, 1] : List Int).length,
      (([1, 0, 0, 0, 1] : List Int).getD i 0 : Rat) *
        (10000 : Rat) ^ ((4 : Int) - ((i : Int) + 1) + 1)) = 10000000000000001 ∧
    computeNumericFp0 [1, 0, 0, 0, 1] 1 ≠
      (1 : Rat) * ∑ i in Finset.range ([1, 0, 0, 0, 1] : List Int).length,
        (([1, 0, 0, 0, 1] : List Int).getD i 0 : Rat) *
          (10000 : Rat) ^ ((4 : Int) - ((i : Int) + 1) + 1) := by
  have hfold : hornerFp [1, 0, 0, 0, 1] = ((10000000000000000 : Nat) : Rat) := by
    rw [hornerFp, show ([1, 0, 0, 0, 1] : List Int) = [1, 0, 0, 0] ++ [1] from rfl,
      List.foldl_append]
    rw [show List.foldl
        (fun (r : Rat) (d : Int) => fpRound (fpRound (r * 10000) + (d : Rat))) 0
        [1, 0, 0, 0] = ((hornerNatVal 0 [1, 0, 0, 0] : Nat) : Rat) from
      hornerFp_zero [1, 0, 0, 0] (by decide)]
    rw [show hornerNatVal 0 [1, 0, 0, 0] = 1000000000000 from by decide]
    show fpRound (fpRound (((1000000000000 : Nat) : Rat) * 10000) + ((1 : Int) : Rat)) = _
    rw [show ((1000000000000 : Nat) : Rat) * 10000 = ((10000000000000000 : Nat) : Rat)
      from by push_cast; norm_num]
    rw [fpRound_1e16]
    rw [show ((10000000000000000 : Nat) : Rat) + ((1 : Int) : Rat) =
      ((10000000000000001 : Nat) : Rat) from by push_cast; norm_num]
    rw [fpRound_1e16p1]
  have h1 : computeNumericFp0 [1, 0, 0, 0, 1] 1 = 10000000000000000 := by
    show (if ([1, 0, 0, 0, 1] : List Int).length = 0 then 0
      else ((1 : Int) : Rat) * hornerFp [1, 0, 0, 0, 1]) = 10000000000000000
    rw [if_neg (by decide), hfold]
    push_cast
    norm_num
  have h2 : (1 : Rat) * (∑ i in Finset.range ([1, 0, 0, 0, 1] : List Int).length,
      (([1, 0, 0, 0, 1] : List Int).getD i 0 : Rat) *
        (10000 : Rat) ^ ((4 : Int) - ((i : Int) + 1) + 1)) = 10000000000000001 := by
    rw [show ([1, 0, 0, 0, 1] : List Int).length = 5 from rfl]
    rw [Finset.sum_range_succ, Finset.sum_range_succ, Finset.sum_range_succ,
      Finset.sum_range_succ, Finset.sum_range_succ, Finset.sum_range_zero]
    rw [show (([1, 0, 0, 0, 1] : List Int).getD 0 0) = 1 from by decide,
      show (([1, 0, 0, 0, 1] : List Int).getD 1 0) = 0 from by decide,
      show (([1, 0, 0, 0, 1] : List Int).getD 2 0) = 0 from by decide,
      show (([1, 0, 0, 0, 1] : List Int).getD 3 0) = 0 from by decide,
      show (([1, 0, 0, 0, 1] : List Int).getD 4 0) = 1 from by decide]
    push_cast
    norm_num
  refine ⟨h1, h2, ?_⟩
  rw [h1, h2]
  norm_num

/-- Claim C7, amended: with `weight = len(digits) - 1` (zero scaling
exponent, where `math.Pow(10000, 0) = 1` is documented and exact) and
every running Horner value below `2^53` (rounding exact), the decoded
value equals `sign · Σ dᵢ · 10000^(weight - i + 1)` with `i` the 1-based
digit index (written `i + 1` over the 0-based `Finset.range`); without
those bounds the binary64 accumulation rounds and exact equality fails
(see the counterexample). -/
theorem claim_C7_numeric_value_amended (digits : List Int) (sign : Int)
    (hne : digits ≠ []) (hok : hornerOK 0 digits = true) :
    computeNumericFp0 digits sign =
      (sign : Rat) * ∑ i in Finset.range digits.length,
        (digits.getD i 0 : Rat) *
          (10000 : Rat) ^ ((((digits.length : Int) - 1) - ((i : Int) + 1)) + 1) := by
  have hm : ¬ digits.length = 0 := by simpa using hne
  have he : ∀ i : ℕ, (((digits.length : Int) - 1) - ((i : Int) + 1)) + 1 =
      ((digits.length : Int) - 1) - (i : Int) := fun i => by ring
  simp only [he]
  show (if digits.length = 0 then 0 else (sign : Rat) * hornerFp digits) =
      (sign : Rat) * ∑ i in Finset.range digits.length,
        (digits.getD i 0 : Rat) * (10000 : Rat) ^ (((digits.length : Int) - 1) - (i : Int))
  rw [if_neg hm]
  congr 1
  have h3 := horner_zpow digits 0 ((digits.length : Int) - 1)
  rw [zero_mul, zero_add] at h3
  have he0 : ((digits.length : Int) - 1) - (digits.length : Int) + 1 = 0 := by ring
  rw [he0, zpow_zero, mul_one] at h3
  rw [hornerFp_zero digits hok, ← hornerNat_zero digits hok]
  exact h3

/-- Witness for the amended claim C7 at digits `[1, 2]`, sign −1: the
formula instance and its concrete value −10002. -/
theorem claim_C7_numeric_value_amended_witness :
    ([1, 2] : List Int) ≠ [] ∧ hornerOK 0 [1, 2] = true ∧
    computeNumericFp0 [1, 2] (-1) =
      ((-1 : Int) : Rat) * ∑ i in Finset.range ([1, 2] : List Int).length,
        (([1, 2] : List Int).getD i 0 : Rat) *
          (10000 : Rat) ^ ((((([1, 2] : List Int).length : Int) - 1) - ((i : Int) + 1)) + 1) ∧
    computeNumericFp0 [1, 2] (-1) = -10002 :=
  ⟨by decide, by decide,
   claim_C7_numeric_value_amended [1, 2] (-1) (by decide) (by decide),
   by
    show (if ([1, 2] : List Int).length = 0 then 0
      else (((-1 : Int)) : Rat) * hornerFp [1, 2]) = -10002
    rw [if_neg (by decide), hornerFp_zero [1, 2] (by decide),
      show hornerNatVal 0 [1, 2] = 10002 from by decide]
    push_cast
    norm_num⟩

/-- Witness for the amended claim C2 at the concrete page `pageC2`. -/
theorem claim_C2_amended_witness :
    8192 ≤ pageC2.length ∧ validHeader (parseHeader pageC2) = true ∧
    ParsePage pageC2 =
      some ((([{ offset := 9000, flags := 1, length := 100 }] : List ItemID).filter
        (itemPasses (parseHeader pageC2))).filterMap (tupleStage pageC2)) := by
  have h1 : (8192 : Nat) ≤ pageC2.length := by rw [pageC2_length]
  have h2 : validHeader (parseHeader pageC2) = true := by
    rw [parseHeader_pageC2]; decide
  have h3 : parseItems pageC2 (parseHeader pageC2) =
      some [{ offset := 9000, flags := 1, length := 100 }] := by
    rw [parseHeader_pageC2]; exact parseItems_pageC2
  exact ⟨h1, h2,
    (claim_C2_amended pageC2 [{ offset := 9000, flags := 1, length := 100 }] h1 h2 h3).1⟩
